import Mathlib

/-!
# Verification of the bt-rust-dht routing core

Shallow embedding, in Lean 4, of the parts of the `bt-rust-dht` crate that
the frozen claims are about:

* `src/id.rs`              — 160-bit ids, XOR metric, leading-zero count
* `src/routing/node.rs`    — liveness-tracked nodes and their status
* `src/routing/bucket.rs`  — fixed-capacity buckets with replacement policy
* `src/routing/table.rs`   — bucket sequence, splitting, closest-node walk
* `src/storage.rs`         — bounded expiring announce storage
* `src/transaction.rs`     — 8-byte transaction ids (action id ‖ message id)
* `src/message.rs`         — message model and its bencode-tree codec
* `src/worker/bootstrap.rs`— bootstrap start state machine

Rust `Instant` timestamps are modelled as natural numbers (seconds for the
node/storage clocks); every function that calls `Instant::now()` internally
receives the current instant `now` as an explicit argument.  Rust machine
integers are modelled as `Nat` with explicit bounds where overflow matters.
Recursions that Rust expresses as unbounded mutual recursion (bucket
splitting, the closest-nodes cursor) take an explicit fuel argument; all
invariant theorems are proved for every fuel, and the exported wrappers pass
fuel strictly larger than the reachable recursion depth.
-/

/-! ## Ids (src/id.rs)

A `DhtId` (the source type is called `Id`; renamed here to avoid clashing
with the Lean core type) is a 20-byte big-endian identifier.  We model the
byte array as a `List Nat`; theorems add the length (and, where needed,
byte-range) hypotheses explicitly. -/

/-- Bytes of an id / the id itself; `ID_LEN = 20` in the source. -/
abbrev DhtId := List Nat

def ID_LEN : Nat := 20

def MAX_BUCKETS : Nat := ID_LEN * 8

/-- `u8::leading_zeros` for a byte value `b < 256`. -/
def byteLeadingZeros (b : Nat) : Nat :=
  if 128 ≤ b then 0
  else if 64 ≤ b then 1
  else if 32 ≤ b then 2
  else if 16 ≤ b then 3
  else if 8 ≤ b then 4
  else if 4 ≤ b then 5
  else if 2 ≤ b then 6
  else if 1 ≤ b then 7
  else 8

/-- `DhtId::leading_zeros` (src/id.rs): add 8 for every leading zero byte and
stop at the first non-zero byte, adding its own leading-zero count. -/
def idLeadingZeros : DhtId → Nat
  | [] => 0
  | b :: rest => if b = 0 then 8 + idLeadingZeros rest else byteLeadingZeros b

/-- `impl BitXor for DhtId` (src/id.rs): byte-wise xor. -/
def idXor (a b : DhtId) : DhtId := List.zipWith Nat.xor a b

/-- `DhtId::flip_bit` (src/id.rs): flip the bit at `index` (0 = MSB of byte 0). -/
def flip_bit (a : DhtId) (index : Nat) : DhtId :=
  let byteIndex := index / 8
  let bitIndex := index % 8
  let actualBitIndex := 7 - bitIndex
  a.set byteIndex (Nat.xor (a.getD byteIndex 0) (2 ^ actualBitIndex))

/-- `leading_bit_count` (src/routing/table.rs): number of identical leading
bits between the two ids, i.e. the leading zeros of their xor. -/
def leading_bit_count (localNode remoteNode : DhtId) : Nat :=
  idLeadingZeros (idXor localNode remoteNode)

/-- Big-endian numeric value of an id; used to compare XOR distances. -/
def idValue : DhtId → Nat
  | [] => 0
  | b :: rest => b * 256 ^ rest.length + idValue rest

/-- XOR distance between two ids, as a natural number. -/
def xorDistance (a b : DhtId) : Nat := idValue (idXor a b)

/-! ## Socket addresses

Only the structure needed by the claims: an address family, raw octets and a
port.  The octets carry 4 entries for v4 and 16 for v6. -/

inductive SocketAddr where
  | v4 (octets : List Nat) (port : Nat)
  | v6 (octets : List Nat) (port : Nat)
deriving DecidableEq

def SocketAddr.port : SocketAddr → Nat
  | .v4 _ p => p
  | .v6 _ p => p

/-! ## Nodes (src/routing/node.rs) -/

/-- Maximum wait period (15 minutes, in seconds) before a node becomes
questionable; `MAX_LAST_SEEN_MINS * 60` in the source. -/
def MAX_LAST_SEEN_SECS : Nat := 15 * 60

/-- Maximum number of unanswered requests before a questionable node
becomes bad. -/
def MAX_REFRESH_REQUESTS : Nat := 2

inductive NodeStatus where
  | Bad
  | Questionable
  | Good
deriving DecidableEq

/-- The derived `Ord` on the Rust enum orders `Bad < Questionable < Good`. -/
def NodeStatus.rank : NodeStatus → Nat
  | .Bad => 0
  | .Questionable => 1
  | .Good => 2

structure NodeHandle where
  id : DhtId
  addr : SocketAddr
deriving DecidableEq

structure Node where
  handle : NodeHandle
  last_request : Option Nat
  last_response : Option Nat
  last_local_request : Option Nat
  refresh_requests : Nat
deriving DecidableEq

namespace Node

def id (n : Node) : DhtId := n.handle.id

def addr (n : Node) : SocketAddr := n.handle.addr

/-- `Node::as_bad`: a node that never responded. -/
def as_bad (id : DhtId) (addr : SocketAddr) : Node :=
  { handle := ⟨id, addr⟩
    last_request := none
    last_response := none
    last_local_request := none
    refresh_requests := 0 }

/-- `Node::as_good` at instant `now`: responded just now. -/
def as_good (id : DhtId) (addr : SocketAddr) (now : Nat) : Node :=
  { handle := ⟨id, addr⟩
    last_request := none
    last_response := some now
    last_local_request := none
    refresh_requests := 0 }

/-- `Node::as_questionable` at instant `now`: responded exactly 15 minutes
ago. -/
def as_questionable (id : DhtId) (addr : SocketAddr) (now : Nat) : Node :=
  { handle := ⟨id, addr⟩
    last_request := none
    last_response := some (now - MAX_LAST_SEEN_SECS)
    last_local_request := none
    refresh_requests := 0 }

/-- `Node::status` evaluated at the instant `now` (the source reads
`Instant::now()` internally). -/
def status (n : Node) (now : Nat) : NodeStatus :=
  match n.last_response with
  | none => .Bad
  | some responseTime =>
    if now - responseTime < MAX_LAST_SEEN_SECS then .Good
    else if MAX_REFRESH_REQUESTS ≤ n.refresh_requests then .Bad
    else
      match n.last_request with
      | some requestTime =>
        if now - requestTime < MAX_LAST_SEEN_SECS then .Good else .Questionable
      | none => .Questionable

/-- `Node::update` (src/routing/node.rs): absorb `other` (same handle) into
`self`, according to the status pair at instant `now`. -/
def update (self other : Node) (now : Nat) : Node :=
  match self.status now, other.status now with
  | .Good, .Good =>
    { handle := self.handle
      last_response := other.last_response
      last_request := self.last_request
      last_local_request := self.last_local_request
      refresh_requests := 0 }
  | .Good, .Questionable => self
  | .Good, .Bad => self
  | .Questionable, .Good => other
  | .Questionable, .Questionable => self
  | .Questionable, .Bad => self
  | .Bad, .Good => other
  | .Bad, .Questionable => other
  | .Bad, .Bad => self

/-- `Node::is_ping_able`: good or questionable. -/
def is_ping_able (n : Node) (now : Nat) : Bool :=
  decide (n.status now = NodeStatus.Good) ||
    decide (n.status now = NodeStatus.Questionable)

end Node

/-! ## Buckets (src/routing/bucket.rs) -/

def MAX_BUCKET_SIZE : Nat := 8

/-- A bucket is the fixed array of `MAX_BUCKET_SIZE` node slots, modelled as
a list that is kept at length 8 by construction. -/
abbrev Bucket := List Node

/-- The placeholder node used by `Bucket::new`: id 0, address
127.0.0.1:0, in the bad state. -/
def placeholderNode : Node :=
  Node.as_bad (List.replicate ID_LEN 0) (SocketAddr.v4 [127, 0, 0, 1] 0)

/-- `Bucket::new`: all 8 slots hold the bad placeholder. -/
def Bucket.new : Bucket := List.replicate MAX_BUCKET_SIZE placeholderNode

/-- `Bucket::add_node` at instant `now`.  Returns the updated bucket and the
boolean result of the Rust function (`false` only when the node could not be
placed). -/
def Bucket.add_node (bucket : Bucket) (newNode : Node) (now : Nat) :
    Bucket × Bool :=
  let newNodeStatus := newNode.status now
  if newNodeStatus = NodeStatus.Bad then (bucket, true)
  else
    match bucket.findIdx? (fun node => decide (node.handle = newNode.handle)) with
    | some index =>
      (bucket.set index ((bucket.getD index placeholderNode).update newNode now),
        true)
    | none =>
      match bucket.findIdx?
          (fun node => decide ((node.status now).rank < newNodeStatus.rank)) with
      | some index => (bucket.set index newNode, true)
      | none => (bucket, false)

/-- Count of slots whose status at `now` is not `Bad`. -/
def Bucket.countNonBad (bucket : Bucket) (now : Nat) : Nat :=
  (bucket.filter (fun node => node.status now ≠ NodeStatus.Bad)).length

/-! ## Routing table (src/routing/table.rs) -/

structure RoutingTable where
  buckets : List Bucket
  node_id : DhtId
deriving DecidableEq

/-- `RoutingTable::new`: one fresh bucket. -/
def RoutingTable.new (nodeId : DhtId) : RoutingTable :=
  { buckets := [Bucket.new], node_id := nodeId }

/-- `can_split_bucket` (src/routing/table.rs). -/
def can_split_bucket (numBuckets bucketIndex : Nat) : Bool :=
  decide (bucketIndex = numBuckets - 1) && decide (bucketIndex ≠ MAX_BUCKETS - 1)

/-- `bucket_placement` (src/routing/table.rs): clamp the ideal index to the
existing buckets. -/
def bucket_placement (numSameBits numBuckets : Nat) : Nat :=
  if numBuckets ≤ numSameBits then numBuckets - 1 else numSameBits

/-- `RoutingTable::bucket_index_for_node` (src/routing/table.rs). -/
def RoutingTable.bucket_index_for_node (t : RoutingTable) (nodeId : DhtId) :
    Nat :=
  let bucketIndex := leading_bit_count t.node_id nodeId
  if bucketIndex < t.buckets.length then bucketIndex
  else t.buckets.length - 1

/-! `RoutingTable::add_node`, `bucket_node` and `split_bucket` are mutually
recursive in the source (splitting re-inserts the popped nodes, which may
split again), so we embed them with an explicit fuel argument; running out
of fuel returns the table unchanged.  Reachable depth: one `add_node` call
chains at most 159 splits (`can_split_bucket` forbids splitting once 160
buckets exist), each split round costs one fuel step in the
`bucket_node` chain, and a re-insertion during a split never splits again
(the popped nodes land in the two fresh empty buckets) but needs three
more steps (`split_bucket` → `add_node` → `bucket_node`); with the
top-level `add_node` step, any fuel ≥ 164 computes the source's result.
The exported wrapper passes `4 * MAX_BUCKETS = 640`, so exhaustion is
unreachable from it.  In the source, `split_bucket` checks
`can_split_bucket` itself and returns `false` if the split is impossible;
here the caller performs that check, which is equivalent. -/

mutual

def add_nodeF : Nat → RoutingTable → Node → Nat → RoutingTable
  | 0, t, _, _ => t
  | fuel + 1, t, node, now =>
    if node.status now = NodeStatus.Bad then t
    else
      let numSameBits := leading_bit_count t.node_id node.id
      if numSameBits ≠ MAX_BUCKETS then bucket_nodeF fuel t node numSameBits now
      else t

def bucket_nodeF : Nat → RoutingTable → Node → Nat → Nat → RoutingTable
  | 0, t, _, _, _ => t
  | fuel + 1, t, node, numSameBits, now =>
    let bucketIndex := bucket_placement numSameBits t.buckets.length
    let result := (t.buckets.getD bucketIndex Bucket.new).add_node node now
    if result.2 then { t with buckets := t.buckets.set bucketIndex result.1 }
    else if can_split_bucket t.buckets.length bucketIndex then
      bucket_nodeF fuel (split_bucketF fuel t now) node numSameBits now
    else t

def split_bucketF : Nat → RoutingTable → Nat → RoutingTable
  | 0, t, _ => t
  | fuel + 1, t, now =>
    let splitBucket := t.buckets.getLastD Bucket.new
    let t1 : RoutingTable :=
      { t with buckets := t.buckets.dropLast ++ [Bucket.new, Bucket.new] }
    splitBucket.foldl (fun acc nd => add_nodeF fuel acc nd now) t1

end

/-- `RoutingTable::add_node`: the exported wrapper, with fuel strictly
larger than the maximal reachable split-recursion depth (see the analysis
above: 164 steps suffice even for a call chaining 159 splits). -/
def RoutingTable.add_node (t : RoutingTable) (node : Node) (now : Nat) :
    RoutingTable :=
  add_nodeF (4 * MAX_BUCKETS) t node now

/-- Apply a sequence of `add_node` calls (each with its own instant). -/
def RoutingTable.add_all (t : RoutingTable) (ops : List (Node × Nat)) :
    RoutingTable :=
  ops.foldl (fun acc op => acc.add_node op.1 op.2) t

/-! ## Announce storage (src/storage.rs) -/

def MAX_ITEMS_STORED : Nat := 500

/-- 25 hours, in seconds. -/
def EXPIRATION_TIME : Nat := 25 * 60 * 60

structure ItemExpiration where
  address : SocketAddr
  inserted : Nat
  info_hash : DhtId
deriving DecidableEq

/-- `PartialEq for ItemExpiration` compares address and info hash only, NOT
the insertion time. -/
def ItemExpiration.sameKey (a b : ItemExpiration) : Bool :=
  decide (a.address = b.address) && decide (a.info_hash = b.info_hash)

/-- `ItemExpiration::is_expired`: age of at least 25 hours. -/
def ItemExpiration.is_expired (e : ItemExpiration) (now : Nat) : Bool :=
  decide (EXPIRATION_TIME ≤ now - e.inserted)

/-- `AnnounceItem` just wraps an `ItemExpiration`. -/
structure AnnounceItem where
  expiration : ItemExpiration
deriving DecidableEq

def AnnounceItem.info_hash (a : AnnounceItem) : DhtId :=
  a.expiration.info_hash

def AnnounceItem.address (a : AnnounceItem) : SocketAddr :=
  a.expiration.address

/-- `PartialEq for AnnounceItem` goes through the expirations, so it also
ignores insertion times. -/
def AnnounceItem.sameKey (a b : AnnounceItem) : Bool :=
  a.expiration.sameKey b.expiration

/-- The `HashMap<InfoHash, Vec<AnnounceItem>>` is modelled as an association
list; lookup order is irrelevant to the claims. -/
structure AnnounceStorage where
  storage : List (DhtId × List AnnounceItem)
  expires : List ItemExpiration
deriving DecidableEq

def AnnounceStorage.new : AnnounceStorage := ⟨[], []⟩

def assocGet (m : List (DhtId × List AnnounceItem)) (key : DhtId) :
    Option (List AnnounceItem) :=
  (m.find? (fun kv => decide (kv.1 = key))).map Prod.snd

def assocUpdate (m : List (DhtId × List AnnounceItem)) (key : DhtId)
    (f : List AnnounceItem → List AnnounceItem) :
    List (DhtId × List AnnounceItem) :=
  m.map (fun kv => if kv.1 = key then (kv.1, f kv.2) else kv)

def assocRemove (m : List (DhtId × List AnnounceItem)) (key : DhtId) :
    List (DhtId × List AnnounceItem) :=
  m.filter (fun kv => decide (kv.1 ≠ key))

/-- `AnnounceStorage::remove_expired_items`: drain the expired prefix of the
expiration list and remove the matching items from the map, dropping map
entries that become empty. -/
def AnnounceStorage.remove_expired_items (s : AnnounceStorage) (now : Nat) :
    AnnounceStorage :=
  let numExpired := (s.expires.takeWhile (fun e => e.is_expired now)).length
  let drained := s.expires.take numExpired
  let storage' := drained.foldl
    (fun m e =>
      match assocGet m e.info_hash with
      | none => m
      | some items =>
        let items' := items.filter (fun a => ! a.expiration.sameKey e)
        if items'.isEmpty then assocRemove m e.info_hash
        else assocUpdate m e.info_hash (fun _ => items'))
    s.storage
  { storage := storage', expires := s.expires.drop numExpired }

/-- `AnnounceStorage::insert_contact`: `some true` when the item already
exists, `some false` after a fresh insert, `none` when full. -/
def AnnounceStorage.insert_contact (s : AnnounceStorage) (item : AnnounceItem) :
    AnnounceStorage × Option Bool :=
  let alreadyInList :=
    match assocGet s.storage item.info_hash with
    | some items => items.any (fun a => a.sameKey item)
    | none => false
  match alreadyInList, decide (s.expires.length < MAX_ITEMS_STORED) with
  | false, true =>
    let storage' :=
      match assocGet s.storage item.info_hash with
      | some _ => assocUpdate s.storage item.info_hash (fun items => items ++ [item])
      | none => s.storage ++ [(item.info_hash, [item])]
    ({ s with storage := storage' }, some false)
  | false, false => (s, none)
  | true, _ => (s, some true)

/-- `AnnounceStorage::add` at instant `now` (`ItemExpiration::new` reads
`Instant::now()`, which coincides with `now` in the non-test entry point
`add_item`). -/
def AnnounceStorage.add (s : AnnounceStorage) (infoHash : DhtId)
    (address : SocketAddr) (now : Nat) : AnnounceStorage × Bool :=
  let s1 := s.remove_expired_items now
  let item : AnnounceItem := ⟨⟨address, now, infoHash⟩⟩
  let itemExpiration := item.expiration
  match s1.insert_contact item with
  | (s2, some true) =>
    ({ s2 with expires :=
        (s2.expires.filter (fun e => ! e.sameKey itemExpiration)) ++
          [itemExpiration] },
      true)
  | (s2, some false) =>
    ({ s2 with expires := s2.expires ++ [itemExpiration] }, true)
  | (s2, none) => (s2, false)

/-! ## Closest-nodes iteration (src/routing/table.rs) -/

/-- `usize::checked_sub`. -/
def checkedSub (a b : Nat) : Option Nat :=
  if b ≤ a then some (a - b) else none

/-- `usize::checked_add`; the additions in `next_bucket_index` stay far below
`2^64`, so overflow cannot occur and the result is always defined. -/
def checkedAdd (a b : Nat) : Option Nat := some (a + b)

/-- `index_is_in_bounds` (src/routing/table.rs). -/
def index_is_in_bounds (length : Nat) (checkedIndex : Option Nat) : Bool :=
  match checkedIndex with
  | some index => decide (index < length)
  | none => false

/-- `next_bucket_index` (src/routing/table.rs): the next bucket index to
visit, given the number of buckets, the start index and the current index. -/
def next_bucket_index (numBuckets startIndex currentIndex : Nat) :
    Option Nat :=
  if currentIndex < startIndex then
    let offset := (startIndex - currentIndex) + 1
    let rightIndex := checkedAdd startIndex offset
    let leftIndex := checkedSub currentIndex 1
    if index_is_in_bounds numBuckets leftIndex then leftIndex
    else if index_is_in_bounds numBuckets rightIndex then rightIndex
    else none
  else if currentIndex = startIndex then
    let rightIndex := checkedAdd startIndex 1
    let leftIndex := checkedSub startIndex 1
    if index_is_in_bounds numBuckets rightIndex then rightIndex
    else if index_is_in_bounds numBuckets leftIndex then leftIndex
    else none
  else
    let offset := currentIndex - startIndex
    let leftIndex := checkedSub startIndex offset
    let rightIndex := checkedAdd currentIndex 1
    if index_is_in_bounds numBuckets leftIndex then leftIndex
    else if index_is_in_bounds numBuckets rightIndex then rightIndex
    else none

/-- `is_good_node` (src/routing/table.rs): good or questionable. -/
def is_good_node (node : Node) (now : Nat) : Bool :=
  decide (node.status now = NodeStatus.Good) ||
    decide (node.status now = NodeStatus.Questionable)

/-- `bucket_iterator` (src/routing/table.rs): the good-node filter over the
bucket at `index` in the sorted slice (the last bucket is excluded unless
every bucket exists). -/
def bucket_iterator (buckets : List Bucket) (index : Nat) (now : Nat) :
    Option (List Node) :=
  ((if buckets.length = MAX_BUCKETS then buckets else buckets.dropLast).get?
      index).map
    (fun bucket => bucket.filter (fun node => is_good_node node now))

/-- `precomputed_assorted_nodes` (src/routing/table.rs): the nodes of the
last bucket tagged with their ideal bucket index and a visited flag. -/
def precomputed_assorted_nodes (buckets : List Bucket) (selfNodeId : DhtId) :
    Option (List (Nat × Node × Bool)) :=
  if buckets.length = MAX_BUCKETS then none
  else
    let assortedBucket := buckets.getLastD Bucket.new
    if assortedBucket.isEmpty then none
    else
      some (assortedBucket.map
        (fun node => (leading_bit_count selfNodeId node.id, node, false)))

/-- The `ClosestNodes` cursor state (src/routing/table.rs). -/
structure ClosestNodes where
  buckets : List Bucket
  current_iter : Option (List Node)
  current_index : Nat
  start_index : Nat
  assorted_nodes : Option (List (Nat × Node × Bool))

/-- `ClosestNodes::new`. -/
def ClosestNodes.new (buckets : List Bucket) (selfNodeId otherNodeId : DhtId)
    (now : Nat) : ClosestNodes :=
  let startIndex := leading_bit_count selfNodeId otherNodeId
  { buckets
    current_iter := bucket_iterator buckets startIndex now
    current_index := startIndex
    start_index := startIndex
    assorted_nodes := precomputed_assorted_nodes buckets selfNodeId }

/-- The `find` + mark step over the assorted array: return the first good
unvisited entry tagged with the wanted index, marking it visited. -/
def markAssorted (now cur : Nat) :
    List (Nat × Node × Bool) → Option (Node × List (Nat × Node × Bool))
  | [] => none
  | (i, n, v) :: rest =>
    if is_good_node n now && decide (i = cur) && ! v then
      some (n, (i, n, true) :: rest)
    else
      (markAssorted now cur rest).map (fun p => (p.1, (i, n, v) :: p.2))

/-- `Iterator::next for ClosestNodes`, with fuel for the index-advancing
recursion (bounded by `MAX_BUCKETS + 1` advances). -/
def ClosestNodes.nextF (now : Nat) :
    Nat → ClosestNodes → Option (Node × ClosestNodes)
  | 0, _ => none
  | fuel + 1, s =>
    match s.current_iter with
    | some (node :: rest) => some (node, { s with current_iter := some rest })
    | _ =>
      let afterAssorted :=
        match s.assorted_nodes with
        | some nodes =>
          match markAssorted now s.current_index nodes with
          | some (node, nodes') =>
            some (node, { s with assorted_nodes := some nodes' })
          | none => none
        | none => none
      match afterAssorted with
      | some result => some result
      | none =>
        match next_bucket_index MAX_BUCKETS s.start_index s.current_index with
        | some newIndex =>
          ClosestNodes.nextF now fuel
            { s with
              current_index := newIndex
              current_iter := bucket_iterator s.buckets newIndex now }
        | none => none

/-- Collect the whole emission sequence of the cursor. -/
def ClosestNodes.collectF (now : Nat) : Nat → ClosestNodes → List Node
  | 0, _ => []
  | fuel + 1, s =>
    match ClosestNodes.nextF now 400 s with
    | some (node, s') => node :: ClosestNodes.collectF now fuel s'
    | none => []

/-- `RoutingTable::closest_nodes`, as the list of emitted nodes.  The inner
fuel (400) exceeds the at most 161 index advances between two emissions,
and the outer fuel exceeds the at most `8 * 160` storable nodes. -/
def RoutingTable.closest_nodes (t : RoutingTable) (nodeId : DhtId)
    (now : Nat) : List Node :=
  ClosestNodes.collectF now 1400 (ClosestNodes.new t.buckets t.node_id nodeId now)

/-- The sequence of bucket indices the cursor visits: iterate
`next_bucket_index` from the start index (the source always passes
`MAX_BUCKETS` as the bucket count here). -/
def walkF (numBuckets startIndex : Nat) : Nat → Nat → List Nat
  | 0, currentIndex => [currentIndex]
  | fuel + 1, currentIndex =>
    currentIndex ::
      match next_bucket_index numBuckets startIndex currentIndex with
      | some next => walkF numBuckets startIndex fuel next
      | none => []

/-- The full visit order from a given start index. -/
def visit_order (startIndex : Nat) : List Nat :=
  walkF MAX_BUCKETS startIndex 400 startIndex

/-! ## Transaction ids (src/transaction.rs) -/

def ACTION_ID_BYTES : Nat := 5

def MESSAGE_ID_BYTES : Nat := 3

def TRANSACTION_ID_BYTES : Nat := ACTION_ID_BYTES + MESSAGE_ID_BYTES

def ACTION_ID_SHIFT : Nat := ACTION_ID_BYTES * 8

def MESSAGE_ID_SHIFT : Nat := MESSAGE_ID_BYTES * 8

/-- Maximum exclusive value for an action id (`1 << 40`). -/
def MAX_ACTION_ID : Nat := 2 ^ ACTION_ID_SHIFT

/-- Maximum exclusive value for a message id (`1 << 24`). -/
def MAX_MESSAGE_ID : Nat := 2 ^ MESSAGE_ID_SHIFT

/-- `u64::to_be_bytes`. -/
def u64ToBeBytes (x : Nat) : List Nat :=
  [x / 2 ^ 56 % 256, x / 2 ^ 48 % 256, x / 2 ^ 40 % 256, x / 2 ^ 32 % 256,
    x / 2 ^ 24 % 256, x / 2 ^ 16 % 256, x / 2 ^ 8 % 256, x % 256]

/-- `u64::from_be_bytes` (and the big-endian value of any byte list). -/
def bytesToNatBE (bytes : List Nat) : Nat :=
  bytes.foldl (fun acc b => acc * 256 + b) 0

/-- A transaction id is its 8-byte array. -/
abbrev TransactionID := List Nat

/-- `TransactionID::new`: the big-endian bytes of the 64-bit value. -/
def TransactionID.new (transId : Nat) : TransactionID :=
  u64ToBeBytes (transId % 2 ^ 64)

/-- The value `MIDGenerator::generate` assembles: the action id shifted past
the message id, or-ed with the message id. -/
def assembleTransId (actionId messageId : Nat) : Nat :=
  Nat.lor (Nat.shiftLeft actionId MESSAGE_ID_SHIFT) messageId

/-- `ActionID::from_transaction_id`: shift out the message id. -/
def ActionID.from_transaction_id (transId : Nat) : Nat :=
  Nat.shiftRight transId MESSAGE_ID_SHIFT

/-- `MessageID::from_transaction_id`: the source masks with
`MAX_ACTION_ID - 1` (the low five bytes), exactly as written. -/
def MessageID.from_transaction_id (transId : Nat) : Nat :=
  Nat.land transId (MAX_ACTION_ID - 1)

/-- `TransactionID::action_id`. -/
def TransactionID.action_id (tid : TransactionID) : Nat :=
  ActionID.from_transaction_id (bytesToNatBE tid)

/-- `TransactionID::message_id`. -/
def TransactionID.message_id (tid : TransactionID) : Nat :=
  MessageID.from_transaction_id (bytesToNatBE tid)

/-! ## Messages and their codec (src/message.rs, src/compact.rs)

The bencode byte serializer itself is an external collaborator (spec §1);
we model the codec down to the bencode value tree: encoding builds the tree
the serde serializers produce (dictionary keys in the sorted order bencode
mandates), decoding mirrors the serde deserializers field by field. -/

inductive Bencode where
  | int (n : Int)
  | str (bytes : List Nat)
  | list (items : List Bencode)
  | dict (entries : List (List Nat × Bencode))

def asciiBytes (s : String) : List Nat := s.data.map Char.toNat

def Bencode.asStr : Bencode → Option (List Nat)
  | .str bytes => some bytes
  | _ => none

def Bencode.asInt : Bencode → Option Int
  | .int n => some n
  | _ => none

def Bencode.asList : Bencode → Option (List Bencode)
  | .list items => some items
  | _ => none

def Bencode.asDict : Bencode → Option (List (List Nat × Bencode))
  | .dict entries => some entries
  | _ => none

def bencodeLookup (entries : List (List Nat × Bencode)) (key : List Nat) :
    Option Bencode :=
  (entries.find? (fun kv => decide (kv.1 = key))).map Prod.snd

/-- Deserialize a `u8` (serde range-checks the integer). -/
def decodeU8 (b : Bencode) : Option Nat :=
  match b with
  | .int n => if 0 ≤ n ∧ n < 256 then some n.toNat else none
  | _ => none

/-- Deserialize a `u16`. -/
def decodeU16 (b : Bencode) : Option Nat :=
  match b with
  | .int n => if 0 ≤ n ∧ n < 65536 then some n.toNat else none
  | _ => none

/-- Deserialize a 20-byte id (`mod byte_array` in src/id.rs rejects other
lengths). -/
def decodeDhtId (b : Bencode) : Option DhtId :=
  match b with
  | .str bytes => if bytes.length = ID_LEN then some bytes else none
  | _ => none

/-! ### Compact socket addresses (src/compact.rs) -/

def SOCKET_ADDR_V4_LEN : Nat := 6

def SOCKET_ADDR_V6_LEN : Nat := 18

/-- `encode_socket_addr`: octets, then the big-endian port. -/
def encode_socket_addr : SocketAddr → List Nat
  | .v4 octets port => octets ++ [port / 256 % 256, port % 256]
  | .v6 octets port => octets ++ [port / 256 % 256, port % 256]

/-- `decode_socket_addr`: by total length 6 (v4) or 18 (v6). -/
def decode_socket_addr (src : List Nat) : Option SocketAddr :=
  if src.length = SOCKET_ADDR_V4_LEN then
    some (.v4 (src.take 4) (src.getD 4 0 * 256 + src.getD 5 0))
  else if src.length = SOCKET_ADDR_V6_LEN then
    some (.v6 (src.take 16) (src.getD 16 0 * 256 + src.getD 17 0))
  else none

/-- `compact::values::serialize`: a bencode list of compact byte strings. -/
def encodeValues (addrs : List SocketAddr) : Bencode :=
  .list (addrs.map (fun a => .str (encode_socket_addr a)))

/-- `compact::values::deserialize`: every element must be a byte string
holding a valid compact address. -/
def decodeValues : List Bencode → Option (List SocketAddr)
  | [] => some []
  | b :: rest =>
    match b.asStr with
    | none => none
    | some bytes =>
      match decode_socket_addr bytes with
      | none => none
      | some addr => (decodeValues rest).map (fun tail => addr :: tail)

/-- `compact::nodes::serialize`: concatenated `20 + ADDR_LEN` byte entries;
an address of the wrong family is a serialization error. -/
def encodeNodes (addrLen : Nat) : List NodeHandle → Option (List Nat)
  | [] => some []
  | node :: rest =>
    let encodedAddr := encode_socket_addr node.addr
    if encodedAddr.length ≠ addrLen then none
    else (encodeNodes addrLen rest).map
      (fun tail => node.id ++ encodedAddr ++ tail)

/-- The `chunks_exact` + `filter_map` loop of `compact::nodes::deserialize`;
`fuel` bounds the byte length. -/
def decodeNodeChunks (addrLen : Nat) : Nat → List Nat → List NodeHandle
  | 0, _ => []
  | fuel + 1, bytes =>
    if bytes.length < ID_LEN + addrLen then []
    else
      let chunk := bytes.take (ID_LEN + addrLen)
      let rest := bytes.drop (ID_LEN + addrLen)
      match decode_socket_addr (chunk.drop ID_LEN) with
      | some addr =>
        ⟨chunk.take ID_LEN, addr⟩ :: decodeNodeChunks addrLen fuel rest
      | none => decodeNodeChunks addrLen fuel rest

/-- `compact::nodes::deserialize`: a non-empty remainder fails the whole
field; invalid chunks are skipped individually. -/
def decodeNodes (addrLen : Nat) (bytes : List Nat) :
    Option (List NodeHandle) :=
  if bytes.length % (ID_LEN + addrLen) ≠ 0 then none
  else some (decodeNodeChunks addrLen bytes.length bytes)

/-! ### The message model -/

inductive Want where
  | V4
  | V6
  | Both
deriving DecidableEq

structure PingRequest where
  id : DhtId
deriving DecidableEq

structure FindNodeRequest where
  id : DhtId
  target : DhtId
  want : Option Want
deriving DecidableEq

structure GetPeersRequest where
  id : DhtId
  info_hash : DhtId
  want : Option Want
deriving DecidableEq

structure AnnouncePeerRequest where
  id : DhtId
  info_hash : DhtId
  port : Option Nat
  token : List Nat
deriving DecidableEq

inductive Request where
  | ping (r : PingRequest)
  | find_node (r : FindNodeRequest)
  | get_peers (r : GetPeersRequest)
  | announce_peer (r : AnnouncePeerRequest)
deriving DecidableEq

structure Response where
  id : DhtId
  values : List SocketAddr
  nodes_v4 : List NodeHandle
  nodes_v6 : List NodeHandle
  token : Option (List Nat)
deriving DecidableEq

/-- The `Error` message payload (the source type is `message::Error`). -/
structure KrpcError where
  code : Nat
  message : List Nat
deriving DecidableEq

inductive MessageBody where
  | request (r : Request)
  | response (r : Response)
  | error (e : KrpcError)
deriving DecidableEq

structure Message where
  transaction_id : List Nat
  body : MessageBody
deriving DecidableEq

/-! ### Encoding (the serde `Serialize` side) -/

/-- `mod want` serializer: `n4`, `n6`, or both. -/
def encodeWant : Want → Bencode
  | .V4 => .list [.str (asciiBytes "n4")]
  | .V6 => .list [.str (asciiBytes "n6")]
  | .Both => .list [.str (asciiBytes "n4"), .str (asciiBytes "n6")]

/-- The optional `want` entry (omitted when `none`). -/
def wantEntry (want : Option Want) : List (List Nat × Bencode) :=
  match want with
  | none => []
  | some w => [(asciiBytes "want", encodeWant w)]

/-- `mod port` serializer: a `port` field when present, `implied_port = 1`
when absent (`implied_port: port.is_none()`, and `false` is skipped). -/
def portEntries (port : Option Nat) : List (List Nat × Bencode) :=
  match port with
  | some p => [(asciiBytes "port", .int p)]
  | none => [(asciiBytes "implied_port", .int 1)]

/-- Method name and argument dictionary of a request (dictionary keys in
bencode's sorted order, as `serde_bencoded` emits them). -/
def encodeRequest : Request → Option (List Nat × Bencode)
  | .ping r => some (asciiBytes "ping", .dict [(asciiBytes "id", .str r.id)])
  | .find_node r =>
    some (asciiBytes "find_node",
      .dict ([(asciiBytes "id", .str r.id),
        (asciiBytes "target", .str r.target)] ++ wantEntry r.want))
  | .get_peers r =>
    some (asciiBytes "get_peers",
      .dict ([(asciiBytes "id", .str r.id),
        (asciiBytes "info_hash", .str r.info_hash)] ++ wantEntry r.want))
  | .announce_peer r =>
    match r.port with
    | some p =>
      some (asciiBytes "announce_peer",
        .dict [(asciiBytes "id", .str r.id),
          (asciiBytes "info_hash", .str r.info_hash),
          (asciiBytes "port", .int p),
          (asciiBytes "token", .str r.token)])
    | none =>
      some (asciiBytes "announce_peer",
        .dict [(asciiBytes "id", .str r.id),
          (asciiBytes "implied_port", .int 1),
          (asciiBytes "info_hash", .str r.info_hash),
          (asciiBytes "token", .str r.token)])

/-- The response dictionary: empty vectors and an absent token are skipped
(`skip_serializing_if`). -/
def encodeResponse (r : Response) : Option Bencode := do
  let nodesV4Bytes ← encodeNodes SOCKET_ADDR_V4_LEN r.nodes_v4
  let nodesV6Bytes ← encodeNodes SOCKET_ADDR_V6_LEN r.nodes_v6
  some (.dict
    ([(asciiBytes "id", .str r.id)] ++
      (if r.nodes_v4.isEmpty then [] else [(asciiBytes "nodes", .str nodesV4Bytes)]) ++
      (if r.nodes_v6.isEmpty then [] else [(asciiBytes "nodes6", .str nodesV6Bytes)]) ++
      (match r.token with
        | some token => [(asciiBytes "token", .str token)]
        | none => []) ++
      (if r.values.isEmpty then [] else [(asciiBytes "values", encodeValues r.values)])))

/-- `Message` encoding down to the bencode tree (the byte-level bencode
serializer is external). -/
def Message.encode (m : Message) : Option Bencode :=
  match m.body with
  | .request r => do
    let (name, args) ← encodeRequest r
    some (.dict [(asciiBytes "a", args), (asciiBytes "q", .str name),
      (asciiBytes "t", .str m.transaction_id), (asciiBytes "y", .str (asciiBytes "q"))])
  | .response r => do
    let rd ← encodeResponse r
    some (.dict [(asciiBytes "r", rd),
      (asciiBytes "t", .str m.transaction_id), (asciiBytes "y", .str (asciiBytes "r"))])
  | .error e =>
    some (.dict [(asciiBytes "e", .list [.int e.code, .str e.message]),
      (asciiBytes "t", .str m.transaction_id), (asciiBytes "y", .str (asciiBytes "e"))])

/-! ### Decoding (the serde `Deserialize` side) -/

/-- One step of the `want` visitor. -/
def wantStep (value : Option Want) (s : List Nat) : Option Want :=
  if s = asciiBytes "n4" ∨ s = asciiBytes "N4" then
    match value with
    | none => some .V4
    | some .V6 => some .Both
    | v => v
  else if s = asciiBytes "n6" ∨ s = asciiBytes "N6" then
    match value with
    | none => some .V6
    | some .V4 => some .Both
    | v => v
  else value

/-- The `want` visitor: fold over a list of strings. -/
def decodeWantList : Option Want → List Bencode → Option (Option Want)
  | value, [] => some value
  | value, b :: rest =>
    match b.asStr with
    | some s => decodeWantList (wantStep value s) rest
    | none => none

/-- The optional `want` field of an argument dictionary. -/
def decodeWantField (args : List (List Nat × Bencode)) :
    Option (Option Want) :=
  match bencodeLookup args (asciiBytes "want") with
  | none => some none
  | some b =>
    match b.asList with
    | some items => decodeWantList none items
    | none => none

/-- The flattened `port`/`implied_port` wrapper: a set `implied_port` wins
over any `port`; otherwise a missing `port` is an error. -/
def decodePortField (args : List (List Nat × Bencode)) :
    Option (Option Nat) := do
  let impliedPort ←
    match bencodeLookup args (asciiBytes "implied_port") with
    | none => some false
    | some b => (decodeU8 b).map (fun n => decide (0 < n))
  let port ←
    match bencodeLookup args (asciiBytes "port") with
    | none => some none
    | some b => (decodeU16 b).map some
  if impliedPort then some none
  else match port with
    | some p => some (some p)
    | none => none

/-- Required 20-byte id field. -/
def decodeIdField (args : List (List Nat × Bencode)) (key : List Nat) :
    Option DhtId :=
  (bencodeLookup args key).bind decodeDhtId

/-- Required byte-string field. -/
def decodeBytesField (args : List (List Nat × Bencode)) (key : List Nat) :
    Option (List Nat) :=
  (bencodeLookup args key).bind Bencode.asStr

/-- Dispatch on the method name (`#[serde(tag = "q", content = "a")]`). -/
def decodeRequest (name : List Nat) (args : List (List Nat × Bencode)) :
    Option Request :=
  if name = asciiBytes "ping" then do
    let id ← decodeIdField args (asciiBytes "id")
    some (.ping ⟨id⟩)
  else if name = asciiBytes "find_node" then do
    let id ← decodeIdField args (asciiBytes "id")
    let target ← decodeIdField args (asciiBytes "target")
    let want ← decodeWantField args
    some (.find_node ⟨id, target, want⟩)
  else if name = asciiBytes "get_peers" then do
    let id ← decodeIdField args (asciiBytes "id")
    let infoHash ← decodeIdField args (asciiBytes "info_hash")
    let want ← decodeWantField args
    some (.get_peers ⟨id, infoHash, want⟩)
  else if name = asciiBytes "announce_peer" then do
    let id ← decodeIdField args (asciiBytes "id")
    let infoHash ← decodeIdField args (asciiBytes "info_hash")
    let port ← decodePortField args
    let token ← decodeBytesField args (asciiBytes "token")
    some (.announce_peer ⟨id, infoHash, port, token⟩)
  else none

/-- Decode a response dictionary (missing vector fields default to empty,
a missing token to `none`). -/
def decodeResponse (entries : List (List Nat × Bencode)) :
    Option Response := do
  let id ← decodeIdField entries (asciiBytes "id")
  let values ←
    match bencodeLookup entries (asciiBytes "values") with
    | none => some []
    | some b => b.asList.bind decodeValues
  let nodesV4 ←
    match bencodeLookup entries (asciiBytes "nodes") with
    | none => some []
    | some b => b.asStr.bind (decodeNodes SOCKET_ADDR_V4_LEN)
  let nodesV6 ←
    match bencodeLookup entries (asciiBytes "nodes6") with
    | none => some []
    | some b => b.asStr.bind (decodeNodes SOCKET_ADDR_V6_LEN)
  let token ←
    match bencodeLookup entries (asciiBytes "token") with
    | none => some none
    | some b => b.asStr.map some
  some ⟨id, values, nodesV4, nodesV6, token⟩

/-- Decode the error payload: exactly `[code, message]`. -/
def decodeError (b : Bencode) : Option KrpcError :=
  match b.asList with
  | some [codeB, messageB] => do
    let code ← decodeU8 codeB
    let message ← messageB.asStr
    some ⟨code, message⟩
  | _ => none

/-- `Message` decoding from the bencode tree. -/
def Message.decode (b : Bencode) : Option Message := do
  let entries ← b.asDict
  let transactionId ← (bencodeLookup entries (asciiBytes "t")).bind Bencode.asStr
  let y ← (bencodeLookup entries (asciiBytes "y")).bind Bencode.asStr
  if y = asciiBytes "q" then do
    let name ← (bencodeLookup entries (asciiBytes "q")).bind Bencode.asStr
    let args ← (bencodeLookup entries (asciiBytes "a")).bind Bencode.asDict
    let request ← decodeRequest name args
    some ⟨transactionId, .request request⟩
  else if y = asciiBytes "r" then do
    let rd ← (bencodeLookup entries (asciiBytes "r")).bind Bencode.asDict
    let response ← decodeResponse rd
    some ⟨transactionId, .response response⟩
  else if y = asciiBytes "e" then do
    let e ← bencodeLookup entries (asciiBytes "e")
    let error ← decodeError e
    some ⟨transactionId, .error error⟩
  else none

/-! ### Well-formedness for the round trip -/

def SocketAddr.wf : SocketAddr → Prop
  | .v4 octets port => octets.length = 4 ∧ port < 65536
  | .v6 octets port => octets.length = 16 ∧ port < 65536

instance : DecidablePred SocketAddr.wf := by
  intro a
  cases a <;> simp [SocketAddr.wf] <;> infer_instance

def NodeHandle.wfV4 (n : NodeHandle) : Prop :=
  n.id.length = ID_LEN ∧ (∃ octets port, n.addr = .v4 octets port) ∧ n.addr.wf

def NodeHandle.wfV6 (n : NodeHandle) : Prop :=
  n.id.length = ID_LEN ∧ (∃ octets port, n.addr = .v6 octets port) ∧ n.addr.wf

/-- A message whose fields respect the Rust types: ids are 20 bytes, ports
fit `u16`, `nodes` entries are IPv4 and `nodes6` entries IPv6. -/
def Message.wf (m : Message) : Prop :=
  match m.body with
  | .request (.ping r) => r.id.length = ID_LEN
  | .request (.find_node r) => r.id.length = ID_LEN ∧ r.target.length = ID_LEN
  | .request (.get_peers r) => r.id.length = ID_LEN ∧ r.info_hash.length = ID_LEN
  | .request (.announce_peer r) =>
    r.id.length = ID_LEN ∧ r.info_hash.length = ID_LEN ∧
      (∀ p, r.port = some p → p < 65536)
  | .response r =>
    r.id.length = ID_LEN ∧ (∀ a ∈ r.values, a.wf) ∧
      (∀ n ∈ r.nodes_v4, n.wfV4) ∧ (∀ n ∈ r.nodes_v6, n.wfV6)
  | .error e => e.code < 256

/-! ## Bootstrap start (src/worker/bootstrap.rs)

`TableBootstrap::start` performs DNS resolution and UDP sends through
external collaborators; we pass the resolution result and the per-address
send outcome in as parameters.  The transaction-id generator is modelled as
a counter handing out distinct ids; the timer as the list of newly scheduled
tasks.  Durations are in milliseconds. -/

def INITIAL_TIMEOUT_MS : Nat := 2500

def NO_NETWORK_TIMEOUT_MS : Nat := 5000

def PINGS_PER_BUCKET : Nat := 8

inductive BootstrapState where
  | Bootstrapping
  | Bootstrapped
  | IdleBeforeReBootstrap
deriving DecidableEq

/-- A newly scheduled timer task (duration in milliseconds). -/
inductive ScheduledTask where
  | transactionTimeout (durationMs : Nat) (transId : Nat)
  | idleWakeUp (durationMs : Nat)
deriving DecidableEq

structure TableBootstrap where
  table_id : DhtId
  routers : List String
  router_addresses : List SocketAddr
  id_generator : Nat
  starting_nodes : List SocketAddr
  active_message : List Nat
  current_bootstrap_bucket : Nat
  initial_responses : List SocketAddr
  initial_responses_expected : Nat
  state : BootstrapState
  bootstrap_attempt : Nat
deriving DecidableEq

/-- `TableBootstrap::set_state`: returns whether the Bootstrapped boundary
was crossed. -/
def TableBootstrap.set_state (tb : TableBootstrap) (newState : BootstrapState) :
    TableBootstrap × Bool :=
  if (decide (tb.state = BootstrapState.Bootstrapped)) =
      (decide (newState = BootstrapState.Bootstrapped)) then
    ({ tb with state := newState }, false)
  else
    ({ tb with state := newState }, true)

/-- The `find_node` message of the initial round: target is our own id. -/
def initialFindNodeMessage (tableId : DhtId) (transId : Nat) : Message :=
  { transaction_id := TransactionID.new transId
    body := .request (.find_node ⟨tableId, tableId, none⟩) }

/-- Result of `TableBootstrap::start`: the new state, the scheduled timer
tasks, the datagrams passed to `Socket::send` (in order), and the returned
state-change flag. -/
structure StartResult where
  bootstrap : TableBootstrap
  scheduled : List ScheduledTask
  sent : List (SocketAddr × Message)
  state_changed : Bool

/-- The send loop of `TableBootstrap::start`: every successful send bumps
`initial_responses_expected` while it is below `PINGS_PER_BUCKET`. -/
def bootstrapSendStep (sendOk : SocketAddr → Bool) (acc : TableBootstrap)
    (addr : SocketAddr) : TableBootstrap :=
  if sendOk addr then
    if acc.initial_responses_expected < PINGS_PER_BUCKET then
      { acc with initial_responses_expected :=
          acc.initial_responses_expected + 1 }
    else acc
  else acc

/-- `TableBootstrap::start`, with the DNS resolution outcome `resolved` and
the send outcome `sendOk` supplied externally.  Mirrors the source control
flow including the fall-through after an empty resolution (that branch sets
a 5-second idle timer and the idle state but does not return). -/
def TableBootstrap.start (tb : TableBootstrap) (resolved : List SocketAddr)
    (sendOk : SocketAddr → Bool) : StartResult :=
  let tb := { tb with bootstrap_attempt := tb.bootstrap_attempt + 1 }
  if tb.routers.isEmpty && tb.starting_nodes.isEmpty then
    let tb := { tb with bootstrap_attempt := 0 }
    let (tb, changed) := tb.set_state .Bootstrapped
    { bootstrap := tb, scheduled := [], sent := [], state_changed := changed }
  else
    let tb := { tb with router_addresses := resolved }
    let pre : TableBootstrap × List ScheduledTask :=
      if ! tb.routers.isEmpty && tb.router_addresses.isEmpty then
        let tb := { tb with bootstrap_attempt := 0 }
        ((tb.set_state .IdleBeforeReBootstrap).1,
          [ScheduledTask.idleWakeUp NO_NETWORK_TIMEOUT_MS])
      else (tb, [])
    let tb := pre.1
    let preScheduled := pre.2
    let tb := { tb with active_message := [], current_bootstrap_bucket := 0 }
    let transId := tb.id_generator
    let tb := { tb with id_generator := tb.id_generator + 1 }
    let initialTimeout := ScheduledTask.transactionTimeout INITIAL_TIMEOUT_MS transId
    let tb := { tb with active_message := [transId] }
    let findNodeMessage := initialFindNodeMessage tb.table_id transId
    let tb := { tb with initial_responses_expected := 0, initial_responses := [] }
    let targets := tb.router_addresses ++ tb.starting_nodes
    let tb : TableBootstrap := targets.foldl (bootstrapSendStep sendOk) tb
    let sent := targets.map (fun addr => (addr, findNodeMessage))
    if 0 < tb.initial_responses_expected then
      let (tb, changed) := tb.set_state .Bootstrapping
      { bootstrap := tb, scheduled := preScheduled ++ [initialTimeout],
        sent := sent, state_changed := changed }
    else
      let tb := { tb with bootstrap_attempt := 0 }
      let (tb, changed) := tb.set_state .IdleBeforeReBootstrap
      { bootstrap := tb,
        scheduled := preScheduled ++ [initialTimeout,
          ScheduledTask.idleWakeUp NO_NETWORK_TIMEOUT_MS],
        sent := sent, state_changed := changed }

/-! ## Helper definitions used by the theorem statements -/

/-- Apply a sequence of `Bucket::add_node` calls (each with its own
instant), keeping only the bucket. -/
def Bucket.add_all (bucket : Bucket) (ops : List (Node × Nat)) : Bucket :=
  ops.foldl (fun acc op => (acc.add_node op.1 op.2).1) bucket

/-- The sorted-bucket exactness invariant: every node stored (ever
responded, i.e. not a placeholder) in a non-last bucket `i` lies at exactly
its distance index. -/
def sortedBucketExact (t : RoutingTable) : Prop :=
  ∀ i, i + 1 < t.buckets.length →
    ∀ node ∈ t.buckets.getD i [], node.last_response.isSome = true →
      leading_bit_count t.node_id node.id = i

/-- The routing-table shape invariant maintained by `add_node`. -/
def TableInv (t : RoutingTable) : Prop :=
  1 ≤ t.buckets.length ∧ t.buckets.length ≤ MAX_BUCKETS ∧
    (∀ b ∈ t.buckets, b.length = MAX_BUCKET_SIZE) ∧ sortedBucketExact t

/-- Closed form of the bucket visit order that `next_bucket_index` actually
produces from start index `i` (over the hypothetical `MAX_BUCKETS`-wide
index space the source always passes): `i`, then `i + 1`, then `i - 1` down
to `0`, then `2 * i + 1` up to `159`. -/
def expected_visit_order (startIndex : Nat) : List Nat :=
  if startIndex = 0 then List.range MAX_BUCKETS
  else
    [startIndex] ++
      (if startIndex + 1 < MAX_BUCKETS then [startIndex + 1] else []) ++
      (List.range startIndex).reverse ++
      List.range' (2 * startIndex + 1)
        (MAX_BUCKETS - min MAX_BUCKETS (2 * startIndex + 1))

/-- Concrete inputs exhibiting the closest-nodes behaviour: local id all-ones. -/
def selfIdC : DhtId := List.replicate ID_LEN 255

/-- Target at distance index 2 from `selfIdC`. -/
def targetC : DhtId := 223 :: List.replicate (ID_LEN - 1) 255

/-- A good node at distance index 0 from `selfIdC`. -/
def nodeAC : Node :=
  Node.as_good (127 :: List.replicate (ID_LEN - 1) 255)
    (SocketAddr.v4 [1, 2, 3, 4] 10) 0

/-- A good node at distance index 5 from `selfIdC`. -/
def nodeBC : Node :=
  Node.as_good (251 :: List.replicate (ID_LEN - 1) 255)
    (SocketAddr.v4 [5, 6, 7, 8] 11) 0

/-- A bucket holding one real node and seven placeholders. -/
def bucketWith (n : Node) : Bucket :=
  n :: List.replicate (MAX_BUCKET_SIZE - 1) placeholderNode

/-- Seven-bucket table with `nodeAC` in bucket 0 and `nodeBC` in bucket 5
(the last bucket is the assorted one). -/
def tableC : RoutingTable :=
  { buckets := [bucketWith nodeAC, Bucket.new, Bucket.new, Bucket.new,
      Bucket.new, bucketWith nodeBC, Bucket.new]
    node_id := selfIdC }

/-! ## Basic lemmas -/

theorem idXor_self (a : DhtId) : idXor a a = List.replicate a.length 0 := by
  induction a with
  | nil => rfl
  | cons b rest ih =>
    simp [idXor, List.replicate] at *
    exact ⟨Nat.xor_self b, ih⟩

theorem idLeadingZeros_replicate_zero (n : Nat) :
    idLeadingZeros (List.replicate n 0) = 8 * n := by
  induction n with
  | zero => rfl
  | succ m ih =>
    simp [List.replicate, idLeadingZeros, ih]
    ring

theorem leading_bit_count_self (a : DhtId) :
    leading_bit_count a a = 8 * a.length := by
  rw [leading_bit_count, idXor_self, idLeadingZeros_replicate_zero]

theorem Bucket.length_add_node (b : Bucket) (n : Node) (now : Nat) :
    ((b.add_node n now).1).length = b.length := by
  unfold Bucket.add_node
  dsimp only
  split
  · rfl
  · split
    · simp
    · split
      · simp
      · rfl

theorem Bucket.length_add_all (ops : List (Node × Nat)) (b : Bucket) :
    (Bucket.add_all b ops).length = b.length := by
  induction ops generalizing b with
  | nil => rfl
  | cons op rest ih =>
    simp only [Bucket.add_all, List.foldl_cons] at *
    rw [ih, Bucket.length_add_node]

/-! ## Claim C10 — a Bad incoming node is a true no-op -/

/-- C10: for every bucket state and every incoming node whose status is Bad,
`Bucket::add_node` returns true (as a successful insertion would) while
storing nothing and leaving all slots unchanged. -/
theorem bad_incoming_returns_true_unchanged (b : Bucket) (n : Node)
    (now : Nat) (h : n.status now = NodeStatus.Bad) :
    b.add_node n now = (b, true) := by
  unfold Bucket.add_node
  simp [h]

theorem bad_incoming_returns_true_unchanged_witness :
    (Node.as_bad [0] (SocketAddr.v4 [127, 0, 0, 1] 0)).status 5 =
        NodeStatus.Bad ∧
      Bucket.new.add_node (Node.as_bad [0] (SocketAddr.v4 [127, 0, 0, 1] 0)) 5 =
        (Bucket.new, true) :=
  ⟨by decide,
    bad_incoming_returns_true_unchanged Bucket.new
      (Node.as_bad [0] (SocketAddr.v4 [127, 0, 0, 1] 0)) 5 (by decide)⟩

/-! ## Claim C3 — `Node::update` absorption rules -/

/-- C3 counterexample: with `N` and `N'` both Questionable (equal handle,
different `last_response`), `Node::update` keeps `N` unchanged instead of
replacing it by `N'` as the claim states. -/
theorem node_update_questionable_pair_keeps_self :
    (Node.status ⟨⟨[1], SocketAddr.v4 [9, 9, 9, 9] 1⟩, none, some 100, none, 0⟩
        2000 = NodeStatus.Questionable) ∧
      (Node.status ⟨⟨[1], SocketAddr.v4 [9, 9, 9, 9] 1⟩, none, some 200, none, 0⟩
        2000 = NodeStatus.Questionable) ∧
      Node.update ⟨⟨[1], SocketAddr.v4 [9, 9, 9, 9] 1⟩, none, some 100, none, 0⟩
          ⟨⟨[1], SocketAddr.v4 [9, 9, 9, 9] 1⟩, none, some 200, none, 0⟩ 2000 =
        ⟨⟨[1], SocketAddr.v4 [9, 9, 9, 9] 1⟩, none, some 100, none, 0⟩ ∧
      (⟨⟨[1], SocketAddr.v4 [9, 9, 9, 9] 1⟩, none, some 100, none, 0⟩ : Node) ≠
        ⟨⟨[1], SocketAddr.v4 [9, 9, 9, 9] 1⟩, none, some 200, none, 0⟩ := by
  decide

/-- C3 amended: when `Bucket::add_node` absorbs a non-Bad node `N'` into a
stored node `N` with the same handle via `Node::update`: if both are Good,
`N` keeps its own request history, takes the `last_response` of `N'` and
resets its refresh counter; if `N` is Good and `N'` is not, `N` is
unchanged; if `N'` is Good and `N` is not, or `N` is Bad and `N'` is
Questionable, `N` is replaced by `N'`; and if both are Questionable, `N` is
unchanged. -/
theorem node_update_rules (self other : Node) (now : Nat) :
    (self.status now = NodeStatus.Good → other.status now = NodeStatus.Good →
      self.update other now =
        { handle := self.handle
          last_response := other.last_response
          last_request := self.last_request
          last_local_request := self.last_local_request
          refresh_requests := 0 }) ∧
    (self.status now = NodeStatus.Good → other.status now ≠ NodeStatus.Good →
      self.update other now = self) ∧
    (self.status now ≠ NodeStatus.Good → other.status now = NodeStatus.Good →
      self.update other now = other) ∧
    (self.status now = NodeStatus.Bad →
      other.status now = NodeStatus.Questionable →
      self.update other now = other) ∧
    (self.status now = NodeStatus.Questionable →
      other.status now = NodeStatus.Questionable →
      self.update other now = self) := by
  unfold Node.update
  rcases hs : self.status now <;> rcases ho : other.status now <;> simp

theorem node_update_rules_witness :
    Node.update ⟨⟨[1], SocketAddr.v4 [9, 9, 9, 9] 1⟩, none, some 100, none, 0⟩
        ⟨⟨[1], SocketAddr.v4 [9, 9, 9, 9] 1⟩, none, some 200, none, 0⟩ 2000 =
      ⟨⟨[1], SocketAddr.v4 [9, 9, 9, 9] 1⟩, none, some 100, none, 0⟩ :=
  (node_update_rules _ _ 2000).2.2.2.2 (by decide) (by decide)

/-! ## Claim C9 — the local id is never added -/

/-- C9: adding a node whose id equals the local `node_id` (XOR distance with
160 leading zero bits) leaves every bucket of the routing table unchanged. -/
theorem add_node_own_id_is_noop (t : RoutingTable) (node : Node) (now : Nat)
    (hlen : node.id.length = ID_LEN) (hid : node.id = t.node_id) :
    t.add_node node now = t := by
  unfold RoutingTable.add_node
  rw [show 4 * MAX_BUCKETS = 639 + 1 from rfl]
  unfold add_nodeF
  have hbits : leading_bit_count t.node_id node.id = MAX_BUCKETS := by
    rw [hid, leading_bit_count_self, ← hid, hlen]
    decide
  split
  · rfl
  · simp [hbits]

theorem add_node_own_id_is_noop_witness :
    (RoutingTable.new (List.replicate 20 7)).add_node
        (Node.as_good (List.replicate 20 7) (SocketAddr.v4 [1, 2, 3, 4] 5) 0) 0 =
      RoutingTable.new (List.replicate 20 7) :=
  add_node_own_id_is_noop (RoutingTable.new (List.replicate 20 7))
    (Node.as_good (List.replicate 20 7) (SocketAddr.v4 [1, 2, 3, 4] 5) 0) 0
    (by decide) (by decide)

/-! ## Claim C1 — bucket capacity and good-node anti-churn -/

/-- C1: after any sequence of `Bucket::add_node` calls the bucket still has
its 8 fixed slots (so at most 8 non-Bad nodes); and when every slot holds a
Good node, adding a Good node with a handle different from every stored one
returns false and leaves the bucket unchanged. -/
theorem bucket_capacity_and_anti_churn (ops : List (Node × Nat)) (now : Nat) :
    (Bucket.add_all Bucket.new ops).length = MAX_BUCKET_SIZE ∧
      Bucket.countNonBad (Bucket.add_all Bucket.new ops) now ≤ MAX_BUCKET_SIZE ∧
      ∀ newNode : Node,
        (∀ m ∈ Bucket.add_all Bucket.new ops, m.status now = NodeStatus.Good) →
        newNode.status now = NodeStatus.Good →
        (∀ m ∈ Bucket.add_all Bucket.new ops, m.handle ≠ newNode.handle) →
        (Bucket.add_all Bucket.new ops).add_node newNode now =
          (Bucket.add_all Bucket.new ops, false) := by
  have hlen : (Bucket.add_all Bucket.new ops).length = MAX_BUCKET_SIZE :=
    Bucket.length_add_all ops Bucket.new
  refine ⟨hlen, ?_, ?_⟩
  · calc Bucket.countNonBad (Bucket.add_all Bucket.new ops) now
        ≤ (Bucket.add_all Bucket.new ops).length :=
          List.length_filter_le _ _
      _ = MAX_BUCKET_SIZE := hlen
  · intro newNode hAllGood hNewGood hFresh
    unfold Bucket.add_node
    have h1 : (Bucket.add_all Bucket.new ops).findIdx?
        (fun node => decide (node.handle = newNode.handle)) = none := by
      rw [List.findIdx?_eq_none_iff]
      intro x hx
      simp [hFresh x hx]
    have h2 : (Bucket.add_all Bucket.new ops).findIdx?
        (fun node =>
          decide ((node.status now).rank < NodeStatus.Good.rank)) = none := by
      rw [List.findIdx?_eq_none_iff]
      intro x hx
      simp [hAllGood x hx, NodeStatus.rank]
    simp [hNewGood, h1, h2]

theorem bucket_capacity_and_anti_churn_witness :
    (∀ m ∈ Bucket.add_all Bucket.new
        (((List.range 8).map
          (fun k => (Node.as_good [k] (SocketAddr.v4 [0, 0, 0, 1] 1) 0, 0)))),
      m.status 0 = NodeStatus.Good) ∧
    (Bucket.add_all Bucket.new
        (((List.range 8).map
          (fun k => (Node.as_good [k] (SocketAddr.v4 [0, 0, 0, 1] 1) 0, 0))))).add_node
        (Node.as_good [9] (SocketAddr.v4 [0, 0, 0, 1] 1) 0) 0 =
      (Bucket.add_all Bucket.new
        (((List.range 8).map
          (fun k => (Node.as_good [k] (SocketAddr.v4 [0, 0, 0, 1] 1) 0, 0)))),
        false) :=
  ⟨by decide,
    (bucket_capacity_and_anti_churn
      (((List.range 8).map
        (fun k => (Node.as_good [k] (SocketAddr.v4 [0, 0, 0, 1] 1) 0, 0)))) 0).2.2
      (Node.as_good [9] (SocketAddr.v4 [0, 0, 0, 1] 1) 0)
      (by decide) (by decide) (by decide)⟩

/-! ## Claim C7 — transaction id layout and accessors -/

/-- C7: the generated 8-byte transaction id for action id 1, message id 0 is
`[0,0,0,0,1,0,0,0]`: the first 5 bytes encode the action id (and
`action_id()` recovers it), the last 3 bytes encode the message id 0 — yet
`message_id()` returns `2^24 = 16777216`, because
`MessageID::from_transaction_id` masks with `MAX_ACTION_ID - 1` (the low
five bytes) instead of `MAX_MESSAGE_ID - 1` (the low three), contradicting
the module documentation. -/
theorem transaction_id_layout_message_id_bug :
    TransactionID.new (assembleTransId 1 0) = [0, 0, 0, 0, 1, 0, 0, 0] ∧
      (TransactionID.new (assembleTransId 1 0)).length = TRANSACTION_ID_BYTES ∧
      bytesToNatBE ((TransactionID.new (assembleTransId 1 0)).take ACTION_ID_BYTES)
        = 1 ∧
      TransactionID.action_id (TransactionID.new (assembleTransId 1 0)) = 1 ∧
      bytesToNatBE ((TransactionID.new (assembleTransId 1 0)).drop ACTION_ID_BYTES)
        = 0 ∧
      TransactionID.message_id (TransactionID.new (assembleTransId 1 0)) =
        16777216 := by
  decide

/-! ## Claim C8 — `TableBootstrap::start` -/

theorem bootstrapSendStep_fold_expected (sendOk : SocketAddr → Bool) :
    ∀ (l : List SocketAddr) (acc : TableBootstrap),
      acc.initial_responses_expected ≤ PINGS_PER_BUCKET →
      (l.foldl (bootstrapSendStep sendOk) acc).initial_responses_expected =
        min (acc.initial_responses_expected + l.countP sendOk)
          PINGS_PER_BUCKET := by
  intro l
  induction l with
  | nil =>
    intro acc h
    simp [Nat.min_eq_left h]
  | cons a rest ih =>
    intro acc h
    simp only [List.foldl_cons, List.countP_cons, bootstrapSendStep]
    by_cases hs : sendOk a = true
    · by_cases hlt : acc.initial_responses_expected < PINGS_PER_BUCKET
      · rw [if_pos hs, if_pos hlt, ih _ (by dsimp; omega)]
        dsimp
        simp only [hs, if_true]
        simp only [show PINGS_PER_BUCKET = 8 from rfl] at h hlt ⊢
        omega
      · rw [if_pos hs, if_neg hlt, ih _ h]
        simp only [hs, if_true]
        simp only [show PINGS_PER_BUCKET = 8 from rfl] at h hlt ⊢
        omega
    · rw [if_neg hs, ih _ h]
      simp [hs]

theorem set_state_fst_state (tb : TableBootstrap) (ns : BootstrapState) :
    (tb.set_state ns).1.state = ns := by
  unfold TableBootstrap.set_state
  split <;> rfl

theorem set_state_fst_expected (tb : TableBootstrap) (ns : BootstrapState) :
    (tb.set_state ns).1.initial_responses_expected =
      tb.initial_responses_expected := by
  unfold TableBootstrap.set_state
  split <;> rfl

theorem set_state_fst (tb : TableBootstrap) (ns : BootstrapState) :
    (tb.set_state ns).1 = { tb with state := ns } := by
  unfold TableBootstrap.set_state
  split <;> rfl

/-- C8: `TableBootstrap::start` — with no routers and no seed nodes it
transitions to Bootstrapped immediately; otherwise it sends one shared
`find_node` (target = own id, one freshly generated transaction id) to every
resolved router and seed, sets the expected initial response count to the
number of successful sends capped at 8, and becomes Bootstrapping; when no
send succeeded it schedules a 5-second retry and ends in
IdleBeforeReBootstrap. -/
theorem table_bootstrap_start_behaviour (tb : TableBootstrap)
    (resolved : List SocketAddr) (sendOk : SocketAddr → Bool) :
    (tb.routers = [] → tb.starting_nodes = [] →
      (tb.start resolved sendOk).bootstrap.state = BootstrapState.Bootstrapped ∧
        (tb.start resolved sendOk).sent = []) ∧
    (¬ (tb.routers = [] ∧ tb.starting_nodes = []) →
      (tb.start resolved sendOk).sent =
          (resolved ++ tb.starting_nodes).map
            (fun addr => (addr, initialFindNodeMessage tb.table_id tb.id_generator)) ∧
        (tb.start resolved sendOk).bootstrap.initial_responses_expected =
          min ((resolved ++ tb.starting_nodes).countP sendOk) PINGS_PER_BUCKET ∧
        (0 < (resolved ++ tb.starting_nodes).countP sendOk →
          (tb.start resolved sendOk).bootstrap.state =
            BootstrapState.Bootstrapping) ∧
        ((resolved ++ tb.starting_nodes).countP sendOk = 0 →
          (tb.start resolved sendOk).bootstrap.state =
              BootstrapState.IdleBeforeReBootstrap ∧
            ScheduledTask.idleWakeUp NO_NETWORK_TIMEOUT_MS ∈
              (tb.start resolved sendOk).scheduled)) := by
  have hfold : ∀ (l : List SocketAddr) (B : TableBootstrap),
      B.initial_responses_expected = 0 →
      (l.foldl (bootstrapSendStep sendOk) B).initial_responses_expected =
        min (l.countP sendOk) PINGS_PER_BUCKET := by
    intro l B hB
    rw [bootstrapSendStep_fold_expected sendOk l B
      (by rw [hB]; exact Nat.zero_le _), hB, Nat.zero_add]
  constructor
  · intro h1 h2
    unfold TableBootstrap.start
    simp only [h1, h2, List.isEmpty_nil, Bool.and_self, if_true]
    exact ⟨by rw [set_state_fst], trivial⟩
  · intro hNE
    have hEmpty : (tb.routers.isEmpty && tb.starting_nodes.isEmpty) = false := by
      rcases Bool.eq_false_or_eq_true
          (tb.routers.isEmpty && tb.starting_nodes.isEmpty) with h | h
      · exfalso
        apply hNE
        simp only [Bool.and_eq_true, List.isEmpty_iff] at h
        exact h
      · exact h
    unfold TableBootstrap.start
    simp only [hEmpty, Bool.false_eq_true, if_false, set_state_fst]
    refine ⟨?_, ?_, ?_, ?_⟩
    · split <;> split <;> rfl
    · split <;> split <;> rw [hfold _ _ rfl]
    · intro hpos
      by_cases hPre : (!tb.routers.isEmpty && resolved.isEmpty) = true <;>
        simp only [hPre, Bool.false_eq_true, if_false, if_true] <;> split
      all_goals first
      | rfl
      | (rename_i hcond
         exfalso
         apply hcond
         rw [hfold _ _ rfl]
         exact Nat.lt_min.mpr ⟨hpos, by decide⟩)
    · intro hzero
      by_cases hPre : (!tb.routers.isEmpty && resolved.isEmpty) = true <;>
        simp only [hPre, Bool.false_eq_true, if_false, if_true] <;> split
      all_goals first
      | (rename_i hcond
         rw [hfold _ _ rfl, hzero] at hcond
         exact absurd hcond (by decide))
      | (refine ⟨rfl, ?_⟩
         simp)

theorem table_bootstrap_start_behaviour_witness :
    ((⟨[7], [], [], 0, [], [], 0, [], 8, .IdleBeforeReBootstrap, 0⟩ :
        TableBootstrap).start [] (fun _ => false)).bootstrap.state =
      BootstrapState.Bootstrapped :=
  ((table_bootstrap_start_behaviour
    ⟨[7], [], [], 0, [], [], 0, [], 8, .IdleBeforeReBootstrap, 0⟩ []
    (fun _ => false)).1 rfl rfl).1

/-! ## Claim C6 — `AnnounceStorage::add` -/

theorem drop_takeWhile_length {α : Type} (p : α → Bool) :
    ∀ l : List α, l.drop (l.takeWhile p).length = l.dropWhile p := by
  intro l
  induction l with
  | nil => rfl
  | cons a rest ih =>
    by_cases hp : p a
    · simp [List.takeWhile_cons, List.dropWhile_cons, hp, ih]
    · simp [List.takeWhile_cons, List.dropWhile_cons, hp]

theorem sorted_dropWhile_eq_filter {α : Type} (p : α → Bool)
    (le : α → α → Prop) (hmono : ∀ a b, le a b → p b = true → p a = true) :
    ∀ l : List α, l.Pairwise le → l.dropWhile p = l.filter (fun e => ! p e) := by
  intro l
  induction l with
  | nil => intro _; rfl
  | cons a rest ih =>
    intro hpw
    rcases List.pairwise_cons.mp hpw with ⟨hall, hrest⟩
    by_cases hp : p a
    · simp [List.dropWhile_cons, List.filter_cons, hp, ih hrest]
    · have hnone : ∀ y ∈ rest, p y = false := by
        intro y hy
        rcases Bool.eq_false_or_eq_true (p y) with h | h
        · exact absurd (hmono a y (hall y hy) h) (by simpa using hp)
        · exact h
      simp only [List.dropWhile_cons, hp, Bool.false_eq_true, if_false,
        List.filter_cons]
      simp only [hp, Bool.not_false, if_true]
      rw [List.filter_eq_self.mpr]
      intro y hy
      simp [hnone y hy]

/-- Pruning removes exactly the expired expirations when the queue is sorted
by insertion time. -/
theorem remove_expired_items_expires (s : AnnounceStorage) (now : Nat)
    (hs : s.expires.Pairwise (fun a b => a.inserted ≤ b.inserted)) :
    (s.remove_expired_items now).expires =
      s.expires.filter (fun e => ! e.is_expired now) := by
  unfold AnnounceStorage.remove_expired_items
  dsimp only
  rw [drop_takeWhile_length]
  exact sorted_dropWhile_eq_filter _ _
    (by
      intro a b hab hb
      simp only [ItemExpiration.is_expired, decide_eq_true_eq] at *
      omega)
    s.expires hs

theorem assocGet_update_self (m : List (DhtId × List AnnounceItem))
    (key : DhtId) (f : List AnnounceItem → List AnnounceItem) :
    assocGet (assocUpdate m key f) key = (assocGet m key).map f := by
  induction m with
  | nil => rfl
  | cons kv rest ih =>
    by_cases hk : kv.1 = key
    · simp [assocGet, assocUpdate, List.find?_cons, hk]
    · simp only [assocGet, assocUpdate, List.map_cons, List.find?_cons,
        hk, if_false, decide_False, decide_eq_true_eq] at *
      exact ih

theorem assocGet_append_new (m : List (DhtId × List AnnounceItem))
    (key : DhtId) (v : List AnnounceItem) (h : assocGet m key = none) :
    assocGet (m ++ [(key, v)]) key = some v := by
  induction m with
  | nil => simp [assocGet]
  | cons kv rest ih =>
    by_cases hk : kv.1 = key
    · simp [assocGet, List.find?_cons, hk] at h
    · simp only [assocGet, List.find?_cons, List.cons_append,
        hk, if_false, decide_False, decide_eq_true_eq] at *
      exact ih h

/-- C6: `AnnounceStorage::add(info_hash, address, now)` first prunes every
expired item (the queue being ordered by insertion time); if the exact
(info_hash, address) pair is already stored it moves that pair's expiration
to the end of the queue and returns true; otherwise, below 500 stored items
it inserts the item, appends its expiration and returns true; otherwise it
returns false leaving the pruned storage unchanged. -/
theorem announce_storage_add_behaviour (s : AnnounceStorage) (infoHash : DhtId)
    (address : SocketAddr) (now : Nat)
    (hs : s.expires.Pairwise (fun a b => a.inserted ≤ b.inserted)) :
    ((s.remove_expired_items now).expires =
      s.expires.filter (fun e => ! e.is_expired now)) ∧
    (∀ items,
      assocGet (s.remove_expired_items now).storage infoHash = some items →
      items.any (fun a => a.sameKey ⟨⟨address, now, infoHash⟩⟩) = true →
      s.add infoHash address now =
        ({ storage := (s.remove_expired_items now).storage
           expires :=
             ((s.remove_expired_items now).expires.filter
               (fun e => ! e.sameKey ⟨address, now, infoHash⟩)) ++
             [⟨address, now, infoHash⟩] }, true)) ∧
    ((∀ items,
        assocGet (s.remove_expired_items now).storage infoHash = some items →
        items.any (fun a => a.sameKey ⟨⟨address, now, infoHash⟩⟩) = false) →
      ((s.remove_expired_items now).expires.length < MAX_ITEMS_STORED →
        (s.add infoHash address now).2 = true ∧
        (s.add infoHash address now).1.expires =
          (s.remove_expired_items now).expires ++ [⟨address, now, infoHash⟩] ∧
        assocGet (s.add infoHash address now).1.storage infoHash =
          some (((assocGet (s.remove_expired_items now).storage infoHash).getD [])
            ++ [⟨⟨address, now, infoHash⟩⟩])) ∧
      (MAX_ITEMS_STORED ≤ (s.remove_expired_items now).expires.length →
        s.add infoHash address now = (s.remove_expired_items now, false))) := by
  refine ⟨remove_expired_items_expires s now hs, ?_, ?_⟩
  · intro items hget hany
    unfold AnnounceStorage.add AnnounceStorage.insert_contact
    dsimp only [AnnounceItem.info_hash, ItemExpiration.info_hash,
      AnnounceItem.expiration]
    rw [hget]
    simp only [hany]
  · intro hno
    have halready :
        (match assocGet (s.remove_expired_items now).storage infoHash with
          | some items => items.any (fun a => a.sameKey ⟨⟨address, now, infoHash⟩⟩)
          | none => false) = false := by
      cases hg : assocGet (s.remove_expired_items now).storage infoHash with
      | some items => exact hno items hg
      | none => rfl
    constructor
    · intro hcap
      unfold AnnounceStorage.add AnnounceStorage.insert_contact
      dsimp only [AnnounceItem.info_hash, ItemExpiration.info_hash,
        AnnounceItem.expiration]
      rw [halready]
      simp only [hcap, decide_True, decide_eq_true_eq, if_pos hcap]
      cases hg : assocGet (s.remove_expired_items now).storage infoHash with
      | some old =>
        refine ⟨trivial, trivial, ?_⟩
        rw [assocGet_update_self, hg]
        rfl
      | none =>
        refine ⟨trivial, trivial, ?_⟩
        rw [assocGet_append_new _ _ _ hg]
        rfl
    · intro hcap
      unfold AnnounceStorage.add AnnounceStorage.insert_contact
      dsimp only [AnnounceItem.info_hash, ItemExpiration.info_hash,
        AnnounceItem.expiration]
      rw [halready]
      have : decide ((s.remove_expired_items now).expires.length <
          MAX_ITEMS_STORED) = false := by
        simp
        omega
      simp only [this]

theorem announce_storage_add_behaviour_witness :
    (AnnounceStorage.new.add [3] (SocketAddr.v4 [1, 1, 1, 1] 2) 7).2 = true ∧
      (AnnounceStorage.new.add [3] (SocketAddr.v4 [1, 1, 1, 1] 2) 7).1.expires =
        (AnnounceStorage.new.remove_expired_items 7).expires ++
          [⟨SocketAddr.v4 [1, 1, 1, 1] 2, 7, [3]⟩] ∧
      assocGet (AnnounceStorage.new.add [3]
          (SocketAddr.v4 [1, 1, 1, 1] 2) 7).1.storage [3] =
        some (((assocGet (AnnounceStorage.new.remove_expired_items 7).storage
            [3]).getD []) ++ [⟨⟨SocketAddr.v4 [1, 1, 1, 1] 2, 7, [3]⟩⟩]) :=
  ((announce_storage_add_behaviour AnnounceStorage.new [3]
      (SocketAddr.v4 [1, 1, 1, 1] 2) 7 (by simp [AnnounceStorage.new])).2.2
    (by
      intro items h
      rw [show assocGet (AnnounceStorage.new.remove_expired_items 7).storage [3]
          = none from rfl] at h
      exact absurd h (by simp))).1 (by decide)

/-! ## Claim C2 — routing-table shape invariants -/

theorem bucket_placement_lt (bits len : Nat) (h : 1 ≤ len) :
    bucket_placement bits len < len := by
  unfold bucket_placement
  split <;> omega

theorem Node.update_handle (self other : Node) (now : Nat) :
    (self.update other now).handle = self.handle ∨
      (self.update other now).handle = other.handle := by
  unfold Node.update
  rcases self.status now <;> rcases other.status now <;> simp

theorem Bucket.add_node_mem_pred (b : Bucket) (n : Node) (now : Nat)
    (C : DhtId → Prop)
    (hb : ∀ m ∈ b, m.last_response.isSome = true → C m.id)
    (hn : C n.id) :
    ∀ m ∈ (b.add_node n now).1, m.last_response.isSome = true → C m.id := by
  intro m hm hresp
  unfold Bucket.add_node at hm
  dsimp only at hm
  split at hm
  · exact hb m hm hresp
  · split at hm
    · rename_i idx hidx
      rcases List.mem_or_eq_of_mem_set hm with hold | hnew
      · exact hb m hold hresp
      · obtain ⟨hlt, hfi⟩ := List.findIdx?_eq_some_iff_findIdx_eq.mp hidx
        have hgd : b.getD idx placeholderNode = b.get ⟨idx, hlt⟩ := by
          rw [List.getD_eq_getElem?_getD, List.getElem?_eq_getElem hlt]
          rfl
        have hhandle : (b.getD idx placeholderNode).handle = n.handle := by
          have hw : b[b.findIdx (fun node => decide (node.handle = n.handle))]? =
              some (b.get ⟨idx, hlt⟩) := by
            rw [hfi]
            exact List.getElem?_eq_getElem hlt
          have h2 := List.findIdx_of_getElem?_eq_some hw
          rw [hgd]
          simpa using h2
        have hup := Node.update_handle (b.getD idx placeholderNode) n now
        have : m.handle = n.handle := by
          rcases hup with h | h <;> rw [hnew]
          · rw [h, hhandle]
          · rw [h]
        show C m.handle.id
        rw [this]
        exact hn
    · split at hm
      · rename_i idx hidx
        rcases List.mem_or_eq_of_mem_set hm with hold | hnew
        · exact hb m hold hresp
        · rw [hnew]; exact hn
      · exact hb m hm hresp

theorem bucket_placement_eq_of_lt (bits len i : Nat)
    (h : bucket_placement bits len = i) (hi : i + 1 < len) : bits = i := by
  unfold bucket_placement at h
  split at h <;> omega

theorem getD_eq_getD_nil (l : List Bucket) (i : Nat) (h : i < l.length) :
    l.getD i Bucket.new = l.getD i [] := by
  rw [List.getD_eq_getElem?_getD, List.getD_eq_getElem?_getD,
    List.getElem?_eq_getElem h]
  rfl

theorem tableInv_set (t : RoutingTable) (node : Node) (now : Nat) (bits : Nat)
    (hInv : TableInv t) (hbits : bits = leading_bit_count t.node_id node.id) :
    TableInv { t with buckets :=
      (t.buckets.set (bucket_placement bits t.buckets.length)
        (((t.buckets.getD (bucket_placement bits t.buckets.length)
          Bucket.new).add_node node now).1)) } := by
  obtain ⟨h1, h2, h3, h4⟩ := hInv
  have hjlt : bucket_placement bits t.buckets.length < t.buckets.length :=
    bucket_placement_lt bits _ h1
  refine ⟨by simpa using h1, by simpa using h2, ?_, ?_⟩
  · intro b hb
    rcases List.mem_or_eq_of_mem_set hb with hold | hnew
    · exact h3 b hold
    · rw [hnew, Bucket.length_add_node]
      have hgd : t.buckets.getD (bucket_placement bits t.buckets.length)
          Bucket.new =
          t.buckets.get ⟨bucket_placement bits t.buckets.length, hjlt⟩ := by
        rw [List.getD_eq_getElem?_getD, List.getElem?_eq_getElem hjlt]
        rfl
      rw [hgd]
      exact h3 _ (List.getElem_mem hjlt)
  · intro i hi node' hmem hresp
    simp only [List.length_set] at hi
    by_cases hij : i = bucket_placement bits t.buckets.length
    · have hset : (t.buckets.set (bucket_placement bits t.buckets.length)
          (((t.buckets.getD (bucket_placement bits t.buckets.length)
            Bucket.new).add_node node now).1)).getD i [] =
          ((t.buckets.getD (bucket_placement bits t.buckets.length)
            Bucket.new).add_node node now).1 := by
        rw [List.getD_eq_getElem?_getD, hij,
          List.getElem?_set_self hjlt]
        rfl
      rw [hset] at hmem
      have hbi : bits = i :=
        bucket_placement_eq_of_lt bits t.buckets.length i hij.symm
          (by simpa using hi)
      refine Bucket.add_node_mem_pred _ _ _
        (fun id => leading_bit_count t.node_id id = i) ?_ ?_ node' hmem hresp
      · intro m hm hr
        refine h4 i (by simpa using hi) m ?_ hr
        rw [← getD_eq_getD_nil t.buckets i (by omega)]
        rw [hij]
        exact hm
      · show leading_bit_count t.node_id node.id = i
        rw [← hbits, hbi]
    · have hset : (t.buckets.set (bucket_placement bits t.buckets.length)
          (((t.buckets.getD (bucket_placement bits t.buckets.length)
            Bucket.new).add_node node now).1)).getD i [] =
          t.buckets.getD i [] := by
        rw [List.getD_eq_getElem?_getD,
          List.getElem?_set_ne (fun h => hij h.symm),
          List.getD_eq_getElem?_getD]
      rw [hset] at hmem
      exact h4 i (by simpa using hi) node' hmem hresp

theorem placeholder_no_response (m : Node) (hm : m ∈ Bucket.new) :
    m.last_response = none := by
  rcases List.mem_replicate.mp hm with ⟨_, rfl⟩
  rfl

theorem tableInv_split_shape (t : RoutingTable) (hInv : TableInv t)
    (hlen : t.buckets.length ≤ MAX_BUCKETS - 1) :
    TableInv { t with buckets :=
      (t.buckets.dropLast ++ [Bucket.new, Bucket.new]) } := by
  obtain ⟨h1, h2, h3, h4⟩ := hInv
  have hdl : t.buckets.dropLast.length = t.buckets.length - 1 :=
    List.length_dropLast _
  refine ⟨?_, ?_, ?_, ?_⟩
  · simp
  · dsimp only
    rw [List.length_append, hdl]
    simp only [List.length_cons, List.length_nil]
    have : MAX_BUCKETS = 160 := rfl
    omega
  · intro b hb
    rcases List.mem_append.mp hb with h | h
    · exact h3 b ((List.dropLast_sublist _).subset h)
    · simp only [List.mem_cons, List.not_mem_nil, or_false] at h
      rcases h with h | h <;> (rw [h]; rfl)
  · intro i hi node hmem hresp
    show leading_bit_count t.node_id node.id = i
    have hilen : i + 1 < t.buckets.length + 1 := by
      simpa [hdl, Nat.sub_add_cancel h1] using hi
    by_cases hcase : i < t.buckets.length - 1
    · have hget : (t.buckets.dropLast ++ [Bucket.new, Bucket.new]).getD i [] =
          t.buckets.getD i [] := by
        rw [List.getD_eq_getElem?_getD,
          List.getElem?_append_left (by omega),
          List.getD_eq_getElem?_getD,
          List.getElem?_eq_getElem (show i < t.buckets.dropLast.length by omega),
          List.getElem_dropLast,
          List.getElem?_eq_getElem (by omega)]
      rw [hget] at hmem
      exact h4 i (by omega) node hmem hresp
    · exfalso
      have hge : t.buckets.dropLast.length ≤ i := by omega
      have hnew : node ∈ Bucket.new := by
        have hget : (t.buckets.dropLast ++ [Bucket.new, Bucket.new])[i]? =
            [Bucket.new, Bucket.new][i - t.buckets.dropLast.length]? :=
          List.getElem?_append_right hge
        rw [List.getD_eq_getElem?_getD, hget] at hmem
        have hsub : i - t.buckets.dropLast.length < 2 := by omega
        interval_cases h : i - t.buckets.dropLast.length
        · simpa using hmem
        · simpa using hmem
      rw [placeholder_no_response node hnew] at hresp
      simp at hresp

theorem table_funcs_preserve_inv : ∀ fuel : Nat,
    (∀ t node now, TableInv t →
      TableInv (add_nodeF fuel t node now) ∧
        (add_nodeF fuel t node now).node_id = t.node_id) ∧
    (∀ t node bits now, TableInv t →
      bits = leading_bit_count t.node_id node.id →
      TableInv (bucket_nodeF fuel t node bits now) ∧
        (bucket_nodeF fuel t node bits now).node_id = t.node_id) ∧
    (∀ t now, TableInv t → t.buckets.length ≤ MAX_BUCKETS - 1 →
      TableInv (split_bucketF fuel t now) ∧
        (split_bucketF fuel t now).node_id = t.node_id) := by
  intro fuel
  induction fuel with
  | zero =>
    refine ⟨?_, ?_, ?_⟩
    · intro t node now h
      unfold add_nodeF
      exact ⟨h, rfl⟩
    · intro t node bits now h _
      unfold bucket_nodeF
      exact ⟨h, rfl⟩
    · intro t now h _
      unfold split_bucketF
      exact ⟨h, rfl⟩
  | succ fuel ih =>
    obtain ⟨ihAdd, ihBucket, ihSplit⟩ := ih
    refine ⟨?_, ?_, ?_⟩
    · intro t node now hInv
      unfold add_nodeF
      split
      · exact ⟨hInv, rfl⟩
      · dsimp only
        split
        · exact ihBucket t node _ now hInv rfl
        · exact ⟨hInv, rfl⟩
    · intro t node bits now hInv hbits
      unfold bucket_nodeF
      dsimp only
      split
      · exact ⟨tableInv_set t node now bits hInv hbits, rfl⟩
      · split
        · rename_i hok hcs
          have hcs2 : bucket_placement bits t.buckets.length =
              t.buckets.length - 1 ∧
              bucket_placement bits t.buckets.length ≠ MAX_BUCKETS - 1 := by
            simpa [can_split_bucket, Bool.and_eq_true, decide_eq_true_eq]
              using hcs
          have hlen : t.buckets.length ≤ MAX_BUCKETS - 1 := by
            obtain ⟨hi1, hi2, _, _⟩ := hInv
            have hmb : MAX_BUCKETS = 160 := rfl
            rw [hmb] at hcs2 hi2 ⊢
            omega
          obtain ⟨hI2, hN2⟩ := ihSplit t now hInv hlen
          obtain ⟨hI3, hN3⟩ := ihBucket (split_bucketF fuel t now) node bits
            now hI2 (by rw [hN2]; exact hbits)
          exact ⟨hI3, hN3.trans hN2⟩
        · exact ⟨hInv, rfl⟩
    · intro t now hInv hlen
      unfold split_bucketF
      dsimp only
      have hbase := tableInv_split_shape t hInv hlen
      have hfold : ∀ (l : List Node) (t' : RoutingTable), TableInv t' →
          TableInv (l.foldl (fun acc nd => add_nodeF fuel acc nd now) t') ∧
            (l.foldl (fun acc nd => add_nodeF fuel acc nd now) t').node_id =
              t'.node_id := by
        intro l
        induction l with
        | nil => exact fun t' h => ⟨h, rfl⟩
        | cons nd rest ihl =>
          intro t' h
          simp only [List.foldl_cons]
          obtain ⟨hA, hB⟩ := ihAdd t' nd now h
          obtain ⟨hC, hD⟩ := ihl _ hA
          exact ⟨hC, hD.trans hB⟩
      obtain ⟨hC, hD⟩ := hfold (t.buckets.getLastD Bucket.new)
        { t with buckets := (t.buckets.dropLast ++ [Bucket.new, Bucket.new]) }
        hbase
      exact ⟨hC, hD⟩

theorem add_all_preserves_inv (ops : List (Node × Nat)) :
    ∀ t : RoutingTable, TableInv t →
      TableInv (t.add_all ops) ∧ (t.add_all ops).node_id = t.node_id := by
  induction ops with
  | nil => exact fun t h => ⟨h, rfl⟩
  | cons op rest ih =>
    intro t h
    simp only [RoutingTable.add_all, List.foldl_cons] at *
    obtain ⟨hA, hB⟩ :=
      (table_funcs_preserve_inv (4 * MAX_BUCKETS)).1 t op.1 op.2 h
    obtain ⟨hC, hD⟩ := ih (t.add_node op.1 op.2) hA
    exact ⟨hC, hD.trans hB⟩

theorem tableInv_new (nid : DhtId) : TableInv (RoutingTable.new nid) := by
  refine ⟨by simp [RoutingTable.new], by simp [RoutingTable.new]; decide, ?_, ?_⟩
  · intro b hb
    simp only [RoutingTable.new, List.mem_singleton] at hb
    rw [hb]
    rfl
  · intro i hi node hmem hresp
    simp only [RoutingTable.new, List.length_singleton] at hi
    omega

/-- C2: starting from a fresh table, after every sequence of
`RoutingTable::add_node` calls the bucket count `n` satisfies
`1 ≤ n ≤ 160`; every ever-responded node stored in a non-last bucket `i`
has XOR distance from the local id with exactly `i` leading zero bits; the
local id maps into the last bucket; and `can_split_bucket` (the guard every
split goes through) holds only for the last bucket and only while
`n < 160`. -/
theorem routing_table_invariants (nid : DhtId) (ops : List (Node × Nat))
    (hlen : nid.length = ID_LEN) :
    (1 ≤ ((RoutingTable.new nid).add_all ops).buckets.length ∧
      ((RoutingTable.new nid).add_all ops).buckets.length ≤ MAX_BUCKETS) ∧
    sortedBucketExact ((RoutingTable.new nid).add_all ops) ∧
    ((RoutingTable.new nid).add_all ops).bucket_index_for_node
        ((RoutingTable.new nid).add_all ops).node_id =
      ((RoutingTable.new nid).add_all ops).buckets.length - 1 ∧
    (∀ idx,
      can_split_bucket ((RoutingTable.new nid).add_all ops).buckets.length
          idx = true →
      idx = ((RoutingTable.new nid).add_all ops).buckets.length - 1 ∧
        ((RoutingTable.new nid).add_all ops).buckets.length < MAX_BUCKETS) := by
  obtain ⟨hInv, hNid⟩ :=
    add_all_preserves_inv ops (RoutingTable.new nid) (tableInv_new nid)
  obtain ⟨h1, h2, h3, h4⟩ := hInv
  refine ⟨⟨h1, h2⟩, h4, ?_, ?_⟩
  · unfold RoutingTable.bucket_index_for_node
    have hself : leading_bit_count
        ((RoutingTable.new nid).add_all ops).node_id
        ((RoutingTable.new nid).add_all ops).node_id = MAX_BUCKETS := by
      rw [leading_bit_count_self, hNid]
      show 8 * nid.length = MAX_BUCKETS
      rw [hlen]
      decide
    rw [hself]
    rw [if_neg (by omega)]
  · intro idx hcs
    have hcs2 : idx = ((RoutingTable.new nid).add_all ops).buckets.length - 1 ∧
        idx ≠ MAX_BUCKETS - 1 := by
      simpa [can_split_bucket, Bool.and_eq_true, decide_eq_true_eq] using hcs
    have hmb : MAX_BUCKETS = 160 := rfl
    refine ⟨hcs2.1, ?_⟩
    have := hcs2.2
    rw [hmb] at this ⊢
    omega

theorem routing_table_invariants_witness :
    ((RoutingTable.new (List.replicate 20 0)).add_all
        [(Node.as_good (5 :: List.replicate 19 0)
          (SocketAddr.v4 [1, 2, 3, 4] 9) 0, 0)]).bucket_index_for_node
      ((RoutingTable.new (List.replicate 20 0)).add_all
        [(Node.as_good (5 :: List.replicate 19 0)
          (SocketAddr.v4 [1, 2, 3, 4] 9) 0, 0)]).node_id =
    ((RoutingTable.new (List.replicate 20 0)).add_all
        [(Node.as_good (5 :: List.replicate 19 0)
          (SocketAddr.v4 [1, 2, 3, 4] 9) 0, 0)]).buckets.length - 1 :=
  (routing_table_invariants (List.replicate 20 0)
    [(Node.as_good (5 :: List.replicate 19 0)
      (SocketAddr.v4 [1, 2, 3, 4] 9) 0, 0)] (by decide)).2.2.1

/-! ## Claim C4 — closest-nodes iteration order -/

set_option maxRecDepth 100000 in
set_option maxHeartbeats 2000000 in
/-- C4 counterexample: in the 7-bucket table `tableC` (good node `nodeAC` at
distance index 0, good node `nodeBC` at distance index 5) with a target at
distance index 2, `closest_nodes` emits `nodeAC` before `nodeBC` although
`nodeBC` is strictly closer to the target — XOR distance decreases between
consecutive emissions.  Moreover from the start index 2 the next visited
bucket index is `3 = i + 1`, not `i - 1 = 1` as the claim states. -/
theorem closest_nodes_not_monotone :
    tableC.closest_nodes targetC 0 = [nodeAC, nodeBC] ∧
      xorDistance nodeBC.id targetC < xorDistance nodeAC.id targetC ∧
      leading_bit_count selfIdC targetC = 2 ∧
      next_bucket_index MAX_BUCKETS 2 2 = some 3 := by
  decide

set_option maxRecDepth 100000 in
set_option maxHeartbeats 4000000 in
/-- C4 amended: `closest_nodes(t)` starts at bucket index
`i = leading_zeros(self_id XOR t)` and then walks the hypothetical 160-wide
index space in the order `i`, `i + 1`, `i - 1`, `i - 2`, …, `0`,
`2 i + 1`, `2 i + 2`, …, `159` (each clamped to the existing range when
emitting; for `i = 0` the walk is simply `0, 1, …, 159`): it does not
alternate outward, it never visits indices `i + 2 … 2 i`, and consecutive
emissions are not non-decreasing in XOR distance to `t`. -/
theorem closest_nodes_visit_order (startIndex : Nat) (h : startIndex < 161) :
    visit_order startIndex = expected_visit_order startIndex := by
  revert startIndex
  decide

theorem closest_nodes_visit_order_witness :
    visit_order 2 = expected_visit_order 2 :=
  closest_nodes_visit_order 2 (by decide)

/-! ## Claim C5 — message codec round trip -/

theorem decode_encode_socket_addr (a : SocketAddr) (h : a.wf) :
    decode_socket_addr (encode_socket_addr a) = some a := by
  cases a with
  | v4 octets port =>
    obtain ⟨hlen, hport⟩ := h
    unfold encode_socket_addr decode_socket_addr
    have hl : (octets ++ [port / 256 % 256, port % 256]).length =
        SOCKET_ADDR_V4_LEN := by
      simp [hlen]
      decide
    rw [if_pos hl]
    have htake : (octets ++ [port / 256 % 256, port % 256]).take 4 = octets := by
      rw [← hlen, List.take_left]
    have hg4 : (octets ++ [port / 256 % 256, port % 256]).getD 4 0 =
        port / 256 % 256 := by
      rw [List.getD_eq_getElem?_getD, List.getElem?_append_right (by omega),
        hlen]
      rfl
    have hg5 : (octets ++ [port / 256 % 256, port % 256]).getD 5 0 =
        port % 256 := by
      rw [List.getD_eq_getElem?_getD, List.getElem?_append_right (by omega),
        hlen]
      rfl
    rw [htake, hg4, hg5]
    have : port / 256 % 256 * 256 + port % 256 = port := by omega
    rw [this]
  | v6 octets port =>
    obtain ⟨hlen, hport⟩ := h
    unfold encode_socket_addr decode_socket_addr
    have hl : (octets ++ [port / 256 % 256, port % 256]).length = 18 := by
      simp [hlen]
    have hl4 : ¬ (octets ++ [port / 256 % 256, port % 256]).length =
        SOCKET_ADDR_V4_LEN := by
      rw [hl]
      decide
    rw [if_neg hl4, if_pos (by rw [hl]; rfl)]
    have htake : (octets ++ [port / 256 % 256, port % 256]).take 16 = octets := by
      rw [← hlen, List.take_left]
    have hg16 : (octets ++ [port / 256 % 256, port % 256]).getD 16 0 =
        port / 256 % 256 := by
      rw [List.getD_eq_getElem?_getD, List.getElem?_append_right (by omega),
        hlen]
      rfl
    have hg17 : (octets ++ [port / 256 % 256, port % 256]).getD 17 0 =
        port % 256 := by
      rw [List.getD_eq_getElem?_getD, List.getElem?_append_right (by omega),
        hlen]
      rfl
    rw [htake, hg16, hg17]
    have : port / 256 % 256 * 256 + port % 256 = port := by omega
    rw [this]

theorem decode_encode_values (vs : List SocketAddr) (h : ∀ a ∈ vs, a.wf) :
    decodeValues (vs.map (fun a => Bencode.str (encode_socket_addr a))) =
      some vs := by
  induction vs with
  | nil => rfl
  | cons a rest ih =>
    simp only [List.map_cons, decodeValues, Bencode.asStr]
    rw [decode_encode_socket_addr a (h a (List.mem_cons_self a rest)),
      ih (fun x hx => h x (List.mem_cons_of_mem a hx))]
    rfl

theorem decode_encode_nodes (addrLen : Nat) (nodes : List NodeHandle)
    (h : ∀ n ∈ nodes, n.id.length = ID_LEN ∧
      (encode_socket_addr n.addr).length = addrLen ∧
      decode_socket_addr (encode_socket_addr n.addr) = some n.addr) :
    ∃ bytes, encodeNodes addrLen nodes = some bytes ∧
      bytes.length = nodes.length * (ID_LEN + addrLen) ∧
      ∀ fuel, bytes.length ≤ fuel →
        decodeNodeChunks addrLen fuel bytes = nodes := by
  induction nodes with
  | nil =>
    refine ⟨[], rfl, by simp, ?_⟩
    intro fuel _
    cases fuel with
    | zero => rfl
    | succ f =>
      unfold decodeNodeChunks
      rw [if_pos]
      show 0 < ID_LEN + addrLen
      have : ID_LEN = 20 := rfl
      omega
  | cons n rest ih =>
    obtain ⟨hid, halen, hdec⟩ := h n (List.mem_cons_self n rest)
    obtain ⟨bytes, he, hl, hd⟩ :=
      ih (fun x hx => h x (List.mem_cons_of_mem n hx))
    have hchunklen : (n.id ++ encode_socket_addr n.addr).length =
        ID_LEN + addrLen := by
      rw [List.length_append, hid, halen]
    refine ⟨(n.id ++ encode_socket_addr n.addr) ++ bytes, ?_, ?_, ?_⟩
    · unfold encodeNodes
      rw [if_neg (by rw [halen]; exact fun hne => hne rfl), he]
      simp [List.append_assoc]
    · rw [List.length_append, hchunklen, hl]
      simp only [List.length_cons]
      ring
    · intro fuel hfuel
      rw [List.length_append, hchunklen] at hfuel
      have hI : ID_LEN = 20 := rfl
      have hida : ID_LEN + addrLen ≤ fuel := by omega
      cases fuel with
      | zero =>
        exfalso
        have : ID_LEN = 20 := rfl
        omega
      | succ f =>
        unfold decodeNodeChunks
        dsimp only
        rw [if_neg (by
          rw [List.length_append, hchunklen]
          have hI : ID_LEN = 20 := rfl
          omega)]
        rw [List.take_left' hchunklen, List.drop_left' hchunklen]
        have htake20 : (n.id ++ encode_socket_addr n.addr).take ID_LEN = n.id :=
          List.take_left' hid
        have hdrop20 : (n.id ++ encode_socket_addr n.addr).drop ID_LEN =
            encode_socket_addr n.addr :=
          List.drop_left' hid
        rw [htake20, hdrop20, hdec, hd f (by omega)]

theorem decode_encode_nodes_full (addrLen : Nat) (nodes : List NodeHandle)
    (h : ∀ n ∈ nodes, n.id.length = ID_LEN ∧
      (encode_socket_addr n.addr).length = addrLen ∧
      decode_socket_addr (encode_socket_addr n.addr) = some n.addr) :
    ∃ bytes, encodeNodes addrLen nodes = some bytes ∧
      decodeNodes addrLen bytes = some nodes := by
  obtain ⟨bytes, he, hl, hd⟩ := decode_encode_nodes addrLen nodes h
  refine ⟨bytes, he, ?_⟩
  unfold decodeNodes
  rw [if_neg (by
    rw [hl]
    simp [Nat.mul_mod_left])]
  rw [hd bytes.length (le_refl _)]

theorem decode_request_dict (tid name : List Nat)
    (args : List (List Nat × Bencode)) :
    Message.decode (Bencode.dict
      [(asciiBytes "a", Bencode.dict args),
        (asciiBytes "q", Bencode.str name),
        (asciiBytes "t", Bencode.str tid),
        (asciiBytes "y", Bencode.str (asciiBytes "q"))]) =
      (decodeRequest name args).map
        (fun r => (⟨tid, .request r⟩ : Message)) := by
  cases hr : decodeRequest name args <;>
    simp [Message.decode, bencodeLookup, Bencode.asDict, Bencode.asStr,
      List.find?, asciiBytes, Option.bind, hr]

theorem decodeRequest_announce_port (id infoHash token : List Nat) (p : Nat)
    (h1 : id.length = ID_LEN) (h2 : infoHash.length = ID_LEN)
    (hp : p < 65536) :
    decodeRequest (asciiBytes "announce_peer")
      [(asciiBytes "id", Bencode.str id),
        (asciiBytes "info_hash", Bencode.str infoHash),
        (asciiBytes "port", Bencode.int p),
        (asciiBytes "token", Bencode.str token)] =
      some (.announce_peer ⟨id, infoHash, some p, token⟩) := by
  have hu16 : decodeU16 (Bencode.int p) = some p := by
    show (if 0 ≤ (p : Int) ∧ (p : Int) < 65536 then
      some ((p : Int)).toNat else none) = some p
    rw [if_pos ⟨Int.natCast_nonneg p, by exact_mod_cast hp⟩]
    simp
  simp [decodeRequest, decodeIdField, decodeDhtId, bencodeLookup,
    List.find?, asciiBytes, h1, h2, decodePortField, decodeBytesField,
    Bencode.asStr, hu16, Option.bind]

set_option maxRecDepth 4096 in
set_option maxHeartbeats 3200000 in
/-- Round trip of the full message codec over the bencode tree, for
well-formed messages. -/
theorem message_decode_encode (m : Message) (h : m.wf) :
    (Message.encode m).bind Message.decode = some m := by
  obtain ⟨tid, body⟩ := m
  cases body with
  | request req =>
    cases req with
    | ping r =>
      obtain ⟨id⟩ := r
      have h1 : id.length = ID_LEN := h
      simp [Message.encode, Message.decode, encodeRequest, bencodeLookup,
        Bencode.asDict, Bencode.asStr, List.find?, decodeRequest,
        decodeIdField, decodeDhtId, h1, Option.bind, asciiBytes]
    | find_node r =>
      obtain ⟨id, target, want⟩ := r
      obtain ⟨h1, h2⟩ := h
      rcases want with _ | w
      · simp [Message.encode, Message.decode, encodeRequest, bencodeLookup,
          Bencode.asDict, Bencode.asStr, List.find?, decodeRequest,
          decodeIdField, decodeDhtId, h1, h2, Option.bind, asciiBytes,
          wantEntry, decodeWantField]
      · cases w <;>
          (simp [Message.encode, Message.decode, encodeRequest, bencodeLookup,
            Bencode.asDict, Bencode.asStr, List.find?, decodeRequest,
            decodeIdField, decodeDhtId, h1, h2, Option.bind, asciiBytes,
            wantEntry, decodeWantField, encodeWant, decodeWantList,
            Bencode.asList]) <;>
          decide
    | get_peers r =>
      obtain ⟨id, infoHash, want⟩ := r
      obtain ⟨h1, h2⟩ := h
      rcases want with _ | w
      · simp [Message.encode, Message.decode, encodeRequest, bencodeLookup,
          Bencode.asDict, Bencode.asStr, List.find?, decodeRequest,
          decodeIdField, decodeDhtId, h1, h2, Option.bind, asciiBytes,
          wantEntry, decodeWantField]
      · cases w <;>
          (simp [Message.encode, Message.decode, encodeRequest, bencodeLookup,
            Bencode.asDict, Bencode.asStr, List.find?, decodeRequest,
            decodeIdField, decodeDhtId, h1, h2, Option.bind, asciiBytes,
            wantEntry, decodeWantField, encodeWant, decodeWantList,
            Bencode.asList]) <;>
          decide
    | announce_peer r =>
      obtain ⟨id, infoHash, port, token⟩ := r
      obtain ⟨h1, h2, h3⟩ := h
      rcases port with _ | p
      · rw [show Message.encode
              ⟨tid, .request (.announce_peer ⟨id, infoHash, none, token⟩)⟩ =
            some (Bencode.dict
              [(asciiBytes "a", Bencode.dict
                [(asciiBytes "id", Bencode.str id),
                  (asciiBytes "implied_port", Bencode.int 1),
                  (asciiBytes "info_hash", Bencode.str infoHash),
                  (asciiBytes "token", Bencode.str token)]),
                (asciiBytes "q", Bencode.str (asciiBytes "announce_peer")),
                (asciiBytes "t", Bencode.str tid),
                (asciiBytes "y", Bencode.str (asciiBytes "q"))]) from rfl]
        simp [Message.decode, bencodeLookup,
          Bencode.asDict, Bencode.asStr, List.find?, decodeRequest,
          decodeIdField, decodeDhtId, h1, h2, Option.bind, asciiBytes,
          decodePortField, decodeBytesField, decodeU8]
      · have hp : p < 65536 := h3 p rfl
        rw [show Message.encode
              ⟨tid, .request (.announce_peer ⟨id, infoHash, some p, token⟩)⟩ =
            some (Bencode.dict
              [(asciiBytes "a", Bencode.dict
                [(asciiBytes "id", Bencode.str id),
                  (asciiBytes "info_hash", Bencode.str infoHash),
                  (asciiBytes "port", Bencode.int p),
                  (asciiBytes "token", Bencode.str token)]),
                (asciiBytes "q", Bencode.str (asciiBytes "announce_peer")),
                (asciiBytes "t", Bencode.str tid),
                (asciiBytes "y", Bencode.str (asciiBytes "q"))]) from rfl,
          Option.some_bind, decode_request_dict,
          decodeRequest_announce_port id infoHash token p h1 h2 hp]
        rfl
  | response r =>
    obtain ⟨id, values, nodes4, nodes6, token⟩ := r
    obtain ⟨hid, hva, h4, h6⟩ := h
    have hw4 : ∀ n ∈ nodes4, n.id.length = ID_LEN ∧
        (encode_socket_addr n.addr).length = SOCKET_ADDR_V4_LEN ∧
        decode_socket_addr (encode_socket_addr n.addr) = some n.addr := by
      intro n hn
      obtain ⟨hidn, ⟨octets, port, haddr⟩, hwf⟩ := h4 n hn
      refine ⟨hidn, ?_, decode_encode_socket_addr _ hwf⟩
      rw [haddr] at hwf ⊢
      obtain ⟨holen, _⟩ := hwf
      simp [encode_socket_addr, holen]
      decide
    have hw6 : ∀ n ∈ nodes6, n.id.length = ID_LEN ∧
        (encode_socket_addr n.addr).length = SOCKET_ADDR_V6_LEN ∧
        decode_socket_addr (encode_socket_addr n.addr) = some n.addr := by
      intro n hn
      obtain ⟨hidn, ⟨octets, port, haddr⟩, hwf⟩ := h6 n hn
      refine ⟨hidn, ?_, decode_encode_socket_addr _ hwf⟩
      rw [haddr] at hwf ⊢
      obtain ⟨holen, _⟩ := hwf
      simp [encode_socket_addr, holen]
      decide
    obtain ⟨bytes4, he4, hd4⟩ :=
      decode_encode_nodes_full SOCKET_ADDR_V4_LEN nodes4 hw4
    obtain ⟨bytes6, he6, hd6⟩ :=
      decode_encode_nodes_full SOCKET_ADDR_V6_LEN nodes6 hw6
    have hv := decode_encode_values values hva
    rcases token with _ | tk <;>
      by_cases hV : values = [] <;>
      by_cases hN4 : nodes4 = [] <;>
      by_cases hN6 : nodes6 = [] <;>
      simp [Message.encode, Message.decode, encodeResponse, decodeResponse,
        encodeValues, bencodeLookup, Bencode.asDict, Bencode.asStr,
        Bencode.asList, List.find?, decodeIdField, decodeDhtId, hid,
        Option.bind, asciiBytes, hV, hN4, hN6, he4, he6, hd4, hd6, hv,
        List.isEmpty_iff, encodeNodes]
  | error e =>
    obtain ⟨code, msg⟩ := e
    have hc : code < 256 := h
    simp [Message.encode, Message.decode, decodeError, decodeU8, bencodeLookup,
      Bencode.asDict, Bencode.asStr, Bencode.asList, List.find?, Option.bind,
      asciiBytes, hc]

/-- C5: for every well-formed Request/Response/Error message, decoding the
bencode encoding returns the message exactly; the announce_peer encoder
writes a `port` field when a port is present and `implied_port = 1` when it
is absent; and on decode a set `implied_port` preempts any (well-formed)
`port` field. -/
theorem message_roundtrip_and_port_rules :
    (∀ m : Message, m.wf → (Message.encode m).bind Message.decode = some m) ∧
    (∀ r : AnnouncePeerRequest, ∀ p, r.port = some p →
      encodeRequest (.announce_peer r) =
        some (asciiBytes "announce_peer",
          .dict [(asciiBytes "id", .str r.id),
            (asciiBytes "info_hash", .str r.info_hash),
            (asciiBytes "port", .int p),
            (asciiBytes "token", .str r.token)])) ∧
    (∀ r : AnnouncePeerRequest, r.port = none →
      encodeRequest (.announce_peer r) =
        some (asciiBytes "announce_peer",
          .dict [(asciiBytes "id", .str r.id),
            (asciiBytes "implied_port", .int 1),
            (asciiBytes "info_hash", .str r.info_hash),
            (asciiBytes "token", .str r.token)])) ∧
    (∀ (args : List (List Nat × Bencode)) (q : Nat),
      bencodeLookup args (asciiBytes "implied_port") = some (.int 1) →
      bencodeLookup args (asciiBytes "port") = some (.int q) →
      q < 65536 →
      decodePortField args = some none) := by
  refine ⟨message_decode_encode, ?_, ?_, ?_⟩
  · intro r p hp
    obtain ⟨id, ih, port, tok⟩ := r
    cases hp
    rfl
  · intro r hp
    obtain ⟨id, ih, port, tok⟩ := r
    cases hp
    rfl
  · intro args q h1 h2 hq
    have hu : decodeU16 (Bencode.int q) = some q := by
      show (if 0 ≤ (q : Int) ∧ (q : Int) < 65536 then
        some ((q : Int)).toNat else none) = some q
      rw [if_pos ⟨Int.natCast_nonneg q, by exact_mod_cast hq⟩]
      simp
    unfold decodePortField
    rw [h1, h2]
    simp [decodeU8, hu, Option.bind]

theorem message_roundtrip_and_port_rules_witness :
    ((Message.encode ⟨[7], .request (.ping ⟨List.replicate 20 0⟩)⟩).bind
        Message.decode =
      some ⟨[7], .request (.ping ⟨List.replicate 20 0⟩)⟩) ∧
    encodeRequest (.announce_peer ⟨List.replicate 20 0, List.replicate 20 1,
        some 80, [3]⟩) =
      some (asciiBytes "announce_peer",
        .dict [(asciiBytes "id", .str (List.replicate 20 0)),
          (asciiBytes "info_hash", .str (List.replicate 20 1)),
          (asciiBytes "port", .int 80),
          (asciiBytes "token", .str [3])]) ∧
    encodeRequest (.announce_peer ⟨List.replicate 20 0, List.replicate 20 1,
        none, [3]⟩) =
      some (asciiBytes "announce_peer",
        .dict [(asciiBytes "id", .str (List.replicate 20 0)),
          (asciiBytes "implied_port", .int 1),
          (asciiBytes "info_hash", .str (List.replicate 20 1)),
          (asciiBytes "token", .str [3])]) ∧
    decodePortField [(asciiBytes "implied_port", Bencode.int 1),
      (asciiBytes "port", Bencode.int 6881)] = some none :=
  ⟨message_roundtrip_and_port_rules.1 _ rfl,
   message_roundtrip_and_port_rules.2.1 _ 80 rfl,
   message_roundtrip_and_port_rules.2.2.1 _ rfl,
   message_roundtrip_and_port_rules.2.2.2 _ 6881 rfl rfl (by decide)⟩
